import Mathlib

/-!
Verification of the agent-ctrl control plane against its specification.

This file contains a shallow embedding, in Lean 4, of the parts of the
agent-ctrl repository that the specification's claims are about:

* a model of Python's `fnmatch.fnmatch` glob matcher (stdlib; used by both
  policy engines and the risk engine for `*`/`?`/`[...]` pattern matching);
* the policy decision functions `ctrl.policy.core.decide_explain` and
  `ctrl.langchain.client.decide`;
* the restricted expression evaluator `ctrl.risk.expr.safe_eval` (tokenizer,
  parser, validator and interpreter), a model of `ast.parse` + `_validate` +
  `eval` restricted to the expression sub-language the evaluator accepts;
* the approval/deny condition checkers `ctrl.policy.conditions`;
* the risk scoring engine `ctrl.risk.engine.RiskEngine.score`;
* the canonical JSON serializer `_stable_json` and the SHA-256 hash used for
  `arguments_hash`;
* a state-transition model of the `/approve/{request_id}` endpoint of
  `ctrl.approvals.api`.

Python values are embedded as an inductive `Value`; Python `int` is `Int`,
Python IEEE-754 `float` is modeled as exact rationals `ℚ` (no claim in this
development depends on rounding of float arithmetic); Python exceptions are
values of `PyExc` carried in `Except`.
-/

namespace Ctrl

/-! ## Model of Python `fnmatch.fnmatch`

`fnmatch(name, pat)` matches `name` against the shell-style pattern `pat`:
`*` matches any (possibly empty) sequence, `?` matches any single character,
`[seq]` matches one character of the class (`[!seq]` negates; `a-b` is a
range; an unterminated `[` is a literal; a `]` directly after `[` or `[!` is
a literal member of the class).  On POSIX `os.path.normcase` is the identity,
so the matcher is case-sensitive. -/

/-- Split a character-class body at its terminating `]`; `none` when the
class is unterminated. -/
def splitClass : List Char → Option (List Char × List Char)
  | [] => none
  | c :: t =>
    if c = ']' then some ([], t)
    else match splitClass t with
      | some (s, r) => some (c :: s, r)
      | none => none

/-- Scan a bracket class after the opening `[`: returns the negation flag,
the raw class body and the rest of the pattern, or `none` when the class is
unterminated (in which case `[` is a literal). -/
def scanClass (cs : List Char) : Option (Bool × List Char × List Char) :=
  let p : Bool × List Char :=
    match cs with
    | c :: t => if c = '!' then (true, t) else (false, cs)
    | [] => (false, cs)
  match p.2 with
  | c :: t =>
    if c = ']' then
      match splitClass t with
      | some (s, r) => some (p.1, ']' :: s, r)
      | none => none
    else
      match splitClass p.2 with
      | some (s, r) => some (p.1, s, r)
      | none => none
  | [] => none

/-- Interpret a class body as single characters and `a-b` ranges
(a trailing or leading hyphen is a literal). -/
def classItems : List Char → List (Char × Char)
  | a :: c :: b :: rest =>
    if c = '-' then (a, b) :: classItems rest
    else (a, a) :: classItems (c :: b :: rest)
  | a :: rest => (a, a) :: classItems rest
  | [] => []

/-- Character-class membership, with negation flag. -/
def inClass (neg : Bool) (items : List (Char × Char)) (c : Char) : Bool :=
  let hit := items.any fun p => decide (p.1 ≤ c) && decide (c ≤ p.2)
  if neg then !hit else hit

/-- Core glob matcher over character lists: pattern against subject.  The
`fuel` parameter makes the recursion structural (hence kernel-evaluable);
every recursive call strictly decreases `pattern.length + subject.length`,
so the fuel supplied by `matchGlob` can never run out. -/
def matchGlobFuel : Nat → List Char → List Char → Bool
  | 0, _, _ => false
  | _ + 1, [], [] => true
  | _ + 1, [], _ :: _ => false
  | f + 1, '*' :: ps, [] => matchGlobFuel f ps []
  | f + 1, '*' :: ps, c :: s =>
    matchGlobFuel f ps (c :: s) || matchGlobFuel f ('*' :: ps) s
  | _ + 1, '?' :: _, [] => false
  | f + 1, '?' :: ps, _ :: s => matchGlobFuel f ps s
  | f + 1, '[' :: ps, s =>
    match scanClass ps with
    | some (neg, body, rest) =>
      match s with
      | [] => false
      | c :: s2 => inClass neg (classItems body) c && matchGlobFuel f rest s2
    | none =>
      match s with
      | c :: s2 => c = '[' && matchGlobFuel f ps s2
      | [] => false
  | _ + 1, _ :: _, [] => false
  | f + 1, p :: ps, c :: s => p = c && matchGlobFuel f ps s

/-- Glob matching of a subject against a pattern, with sufficient fuel. -/
def matchGlob (p s : List Char) : Bool :=
  matchGlobFuel (p.length + s.length + 1) p s

/-- Model of `fnmatch.fnmatch(name, pat)` (POSIX `normcase` is the identity). -/
def fnmatch (name pat : String) : Bool :=
  matchGlob pat.data name.data

/-! ## Policy configuration (`ctrl.config.schema`)

Pydantic guarantees: `PolicyMatch` fields default to `"*"`; `Policy.effect`
is one of `allow|deny|pending`; `Policy.reason` is a string defaulting to
`""` (never `None`); policy ids are unique. -/

/-- Model of `ctrl.config.schema.PolicyMatch`. -/
structure PolicyMatch where
  server : String := "*"
  tool : String := "*"
  env : String := "*"
  deriving Repr, DecidableEq

/-- Model of `ctrl.config.schema.Policy`.  The field `match` is a Lean keyword, so it
is embedded as `match_`. -/
structure Policy where
  id : String
  match_ : PolicyMatch
  effect : String
  reason : String := ""
  deny : Option String := none
  require_approval_if : Option String := none
  deriving Repr, DecidableEq

/-- Model of `ctrl.config.schema.PolicyConfig`. -/
structure PolicyConfig where
  policies : List Policy
  deriving Repr, DecidableEq

/-! ## Policy decision engines

Two implementations exist in the source: `ctrl.policy.core.decide_explain`
and `ctrl.langchain.client.decide`. -/

/-- Model of `ctrl.policy.core.PolicyMatchResult`. -/
structure PolicyMatchResult where
  decision : String
  policy_id : Option String
  reason : String
  matched : String
  index : Int
  deriving Repr, DecidableEq

/-- Model of `ctrl.langchain.client.Decision`. -/
structure Decision where
  decision : String
  policy_id : Option String
  reason : String
  matched : String
  deriving Repr, DecidableEq

/-- Python `s or ""` on a `str` value: `""` when `s` is falsy, else `s`
(on strings this is the identity, proved in `pyOrEmpty_eq`). -/
def pyOrEmpty (s : String) : String :=
  if s = "" then "" else s

/-- Does policy `p` match `(server, tool, env)`?  This is the guard
`fnmatch(server, m.server) and fnmatch(tool, m.tool) and fnmatch(env, m.env)`
shared verbatim by `decide_explain` and `decide`. -/
def policyMatches (p : Policy) (server tool env : String) : Bool :=
  fnmatch server p.match_.server && fnmatch tool p.match_.tool &&
    fnmatch env p.match_.env

/-- The `matched` debug string `f"server={m.server} tool={m.tool} env={m.env}"`. -/
def matchedStr (m : PolicyMatch) : String :=
  "server=" ++ m.server ++ " tool=" ++ m.tool ++ " env=" ++ m.env

/-- Loop of `ctrl.policy.core.decide_explain`, carrying the enumeration
index `i`. -/
def decide_explain_go (server tool env : String) : List Policy → Int → PolicyMatchResult
  | [], _ =>
    { decision := "deny", policy_id := none, reason := "No policy matched"
      matched := "none", index := -1 }
  | p :: rest, i =>
    if policyMatches p server tool env then
      { decision := p.effect, policy_id := some p.id, reason := pyOrEmpty p.reason
        matched := matchedStr p.match_, index := i }
    else decide_explain_go server tool env rest (i + 1)

/-- Model of `ctrl.policy.core.decide_explain`: first-match-wins wildcard matching. -/
def decide_explain (cfg : PolicyConfig) (server tool env : String) : PolicyMatchResult :=
  decide_explain_go server tool env cfg.policies 0

/-- Loop of `ctrl.langchain.client.decide`. -/
def decide_go (server tool env : String) : List Policy → Decision
  | [] =>
    { decision := "deny", policy_id := none, reason := "No policy matched"
      matched := "none" }
  | p :: rest =>
    if policyMatches p server tool env then
      { decision := p.effect, policy_id := some p.id, reason := p.reason
        matched := matchedStr p.match_ }
    else decide_go server tool env rest

/-- Model of `ctrl.langchain.client.decide`: first-match-wins wildcard matching,
without the explain fields. -/
def decide (cfg : PolicyConfig) (server tool env : String) : Decision :=
  decide_go server tool env cfg.policies

theorem pyOrEmpty_eq (s : String) : pyOrEmpty s = s := by
  unfold pyOrEmpty
  split <;> simp_all

theorem decide_explain_go_no_match (server tool env : String) (ps : List Policy) (i : Int)
    (h : ∀ p ∈ ps, policyMatches p server tool env = false) :
    decide_explain_go server tool env ps i =
      { decision := "deny", policy_id := none, reason := "No policy matched"
        matched := "none", index := -1 } := by
  induction ps generalizing i with
  | nil => rfl
  | cons p rest ih =>
    unfold decide_explain_go
    rw [h p (List.mem_cons_self p rest)]
    simp only [Bool.false_eq_true, if_false]
    exact ih _ fun q hq => h q (List.mem_cons_of_mem p hq)

theorem decide_explain_go_first (server tool env : String) (ps : List Policy) (i : Int)
    (k : Nat) (hk : k < ps.length)
    (hmatch : policyMatches (ps.get ⟨k, hk⟩) server tool env = true)
    (hbefore : ∀ j (hj : j < k),
      policyMatches (ps.get ⟨j, Nat.lt_trans hj hk⟩) server tool env = false) :
    decide_explain_go server tool env ps i =
      { decision := (ps.get ⟨k, hk⟩).effect, policy_id := some (ps.get ⟨k, hk⟩).id
        reason := pyOrEmpty (ps.get ⟨k, hk⟩).reason
        matched := matchedStr (ps.get ⟨k, hk⟩).match_, index := i + (k : Int) } := by
  induction ps generalizing i k with
  | nil => exact absurd hk (Nat.not_lt_zero k)
  | cons p rest ih =>
    unfold decide_explain_go
    cases k with
    | zero =>
      simp only [List.get] at hmatch
      rw [hmatch]
      simp
    | succ k2 =>
      have h0 : policyMatches p server tool env = false := by
        have := hbefore 0 (Nat.succ_pos k2)
        simpa using this
      rw [h0]
      simp only [Bool.false_eq_true, if_false]
      have hk2 : k2 < rest.length := Nat.lt_of_succ_lt_succ hk
      have := ih (i + 1) k2 hk2 (by simpa using hmatch)
        (fun j hj => by
          have := hbefore (j + 1) (Nat.succ_lt_succ hj)
          simpa using this)
      rw [this]
      congr 1
      omega

/-- C1: Policy decision is default-deny: `decide_explain` iterates policies
in declared order and returns the first policy whose three glob patterns all
match (its effect, id and reason, with the match index); if no policy
matches, it returns the synthetic decision `deny` with `policy_id = none`
and reason `"No policy matched"` (index `-1`). -/
theorem policy_decide_default_deny (cfg : PolicyConfig) (server tool env : String) :
    ((∀ p ∈ cfg.policies, policyMatches p server tool env = false) →
      decide_explain cfg server tool env =
        { decision := "deny", policy_id := none, reason := "No policy matched"
          matched := "none", index := -1 }) ∧
    (∀ k (hk : k < cfg.policies.length),
      policyMatches (cfg.policies.get ⟨k, hk⟩) server tool env = true →
      (∀ j (hj : j < k),
        policyMatches (cfg.policies.get ⟨j, Nat.lt_trans hj hk⟩) server tool env = false) →
      decide_explain cfg server tool env =
        { decision := (cfg.policies.get ⟨k, hk⟩).effect
          policy_id := some (cfg.policies.get ⟨k, hk⟩).id
          reason := (cfg.policies.get ⟨k, hk⟩).reason
          matched := matchedStr (cfg.policies.get ⟨k, hk⟩).match_
          index := (k : Int) }) := by
  constructor
  · exact fun h => decide_explain_go_no_match server tool env cfg.policies 0 h
  · intro k hk hmatch hbefore
    have := decide_explain_go_first server tool env cfg.policies 0 k hk hmatch hbefore
    rw [decide_explain, this, pyOrEmpty_eq]
    congr 1
    omega

/-- Witness for `policy_decide_default_deny`: an empty policy list yields the
synthetic deny, and in a two-policy configuration where only the second
policy matches, the second policy's decision is returned with index 1. -/
theorem policy_decide_default_deny_witness :
    decide_explain { policies := [] } "x" "y" "dev" =
      { decision := "deny", policy_id := none, reason := "No policy matched"
        matched := "none", index := -1 } ∧
    decide_explain
      { policies :=
          [{ id := "p0", match_ := { server := "github", tool := "*", env := "*" }
             effect := "deny", reason := "no code hosting" },
           { id := "p1", match_ := { server := "coingecko", tool := "get_*", env := "*" }
             effect := "allow", reason := "market data ok" }] }
      "coingecko" "get_markets" "dev" =
      { decision := "allow", policy_id := some "p1", reason := "market data ok"
        matched := "server=coingecko tool=get_* env=*", index := 1 } := by
  refine ⟨(policy_decide_default_deny { policies := [] } "x" "y" "dev").1 (by simp), ?_⟩
  exact (policy_decide_default_deny _ "coingecko" "get_markets" "dev").2 1 (by decide)
    (by decide) (fun j hj => by
      have hj0 : j = 0 := by omega
      subst hj0
      show policyMatches
        { id := "p0", match_ := { server := "github", tool := "*", env := "*" }
          effect := "deny", reason := "no code hosting" } "coingecko" "get_markets" "dev" = false
      decide)

theorem decide_go_eq_explain (server tool env : String) (ps : List Policy) (i : Int) :
    decide_go server tool env ps =
      { decision := (decide_explain_go server tool env ps i).decision
        policy_id := (decide_explain_go server tool env ps i).policy_id
        reason := (decide_explain_go server tool env ps i).reason
        matched := (decide_explain_go server tool env ps i).matched } := by
  induction ps generalizing i with
  | nil => rfl
  | cons p rest ih =>
    unfold decide_go decide_explain_go
    by_cases h : policyMatches p server tool env = true
    · rw [h]
      simp [pyOrEmpty_eq]
    · rw [Bool.not_eq_true] at h
      rw [h]
      simp only [Bool.false_eq_true, if_false]
      exact ih (i + 1)

/-- C9: The two policy decision implementations are equivalent: for every
policy configuration and `(server, tool, env)` input, `decide` (interceptor
module) and `decide_explain` (policy core module) return the same decision,
matched policy id, reason and matched-condition string. -/
theorem decide_eq_decide_explain (cfg : PolicyConfig) (server tool env : String) :
    decide cfg server tool env =
      { decision := (decide_explain cfg server tool env).decision
        policy_id := (decide_explain cfg server tool env).policy_id
        reason := (decide_explain cfg server tool env).reason
        matched := (decide_explain cfg server tool env).matched } :=
  decide_go_eq_explain server tool env cfg.policies 0

/-! ## Python runtime values and exceptions

The restricted evaluator (`ctrl.risk.expr`) runs Python expressions over
ints, floats, bools, strings, lists, tuples and (via the bindings) dicts.
Python `int` is embedded as `Int`; IEEE-754 `float` is modeled as an exact
rational (no claim depends on float rounding); `bool` is a subtype of `int`
in Python, which the numeric coercions below honour. -/

/-- The whitelisted helper functions of `ctrl.risk.expr._ALLOWED_FUNCS`. -/
inductive BFn where
  | bmin | bmax | babs | bround | bfloor | bceil | bsqrt | blog
  deriving Repr, DecidableEq

/-- Python exceptions, by kind and message. -/
inductive PyExc where
  | syntaxError (msg : String)
  | valueError (msg : String)
  | zeroDivisionError (msg : String)
  | typeError (msg : String)
  | nameError (msg : String)
  | keyError (msg : String)
  deriving Repr, DecidableEq

/-- Python values reachable by the restricted evaluator. -/
inductive Value where
  | none
  | bool (b : Bool)
  | int (n : Int)
  | float (q : ℚ)
  | str (s : String)
  | list (xs : List Value)
  | tuple (xs : List Value)
  | dict (kvs : List (String × Value))
  | builtin (f : BFn)

instance : Inhabited Value := ⟨.none⟩

/-- Variable bindings (a Python dict with string keys). -/
abbrev Bindings := List (String × Value)

/-- Python truthiness (`bool(v)`). -/
def pyTruthy : Value → Bool
  | .none => false
  | .bool b => b
  | .int n => n != 0
  | .float q => q != 0
  | .str s => s != ""
  | .list xs => !xs.isEmpty
  | .tuple xs => !xs.isEmpty
  | .dict kvs => !kvs.isEmpty
  | .builtin _ => true

/-- Numeric view of a value: its rational magnitude and whether it is a
float (`bool` counts as the ints 0/1). -/
def asNum : Value → Option (ℚ × Bool)
  | .bool b => some (if b then 1 else 0, false)
  | .int n => some ((n : ℚ), false)
  | .float q => some (q, true)
  | _ => Option.none

/-- Integer view of a value (`bool` is an int in Python). -/
def asInt : Value → Option Int
  | .bool b => some (if b then 1 else 0)
  | .int n => some n
  | _ => Option.none

/-- Package a rational as int or float.  Callers only use `isFloat = false`
when the value is integral. -/
def mkNum (q : ℚ) (isFloat : Bool) : Value :=
  if isFloat then .float q else .int q.num

mutual

/-- Python `==`: numeric types compare by value across int/float/bool;
sequences compare pointwise (a list never equals a tuple); dicts compare as
key→value mappings.  `==` never raises. -/
def pyEq : Value → Value → Bool
  | .none, .none => true
  | .str a, .str b => a == b
  | .list xs, .list ys => pyEqList xs ys
  | .tuple xs, .tuple ys => pyEqList xs ys
  | .dict xs, .dict ys => xs.length == ys.length && pyEqEntries xs ys
  | .builtin a, .builtin b => a == b
  | a, b =>
    match asNum a, asNum b with
    | some (x, _), some (y, _) => x == y
    | _, _ => false

def pyEqList : List Value → List Value → Bool
  | [], [] => true
  | x :: xs, y :: ys => pyEq x y && pyEqList xs ys
  | _, _ => false

def pyEqEntries : List (String × Value) → List (String × Value) → Bool
  | [], _ => true
  | (k, v) :: rest, ys =>
    (match ys.lookup k with
     | some w => pyEq v w
     | Option.none => false) && pyEqEntries rest ys

end

/-- Three-way ordering result for Python `<`/`<=`/`>`/`>=`. -/
inductive POrd where
  | lt | eq | gt
  deriving Repr, DecidableEq

/-- Three-way comparison of rationals. -/
def ratCmp (x y : ℚ) : POrd :=
  if x < y then .lt else if y < x then .gt else .eq

/-- Three-way lexicographic comparison of character lists by code point. -/
def strCmpL : List Char → List Char → POrd
  | [], [] => .eq
  | [], _ :: _ => .lt
  | _ :: _, [] => .gt
  | a :: as_, b :: bs =>
    if a < b then .lt else if b < a then .gt else strCmpL as_ bs

/-- Three-way comparison of strings (code-point lexicographic, as in
Python). -/
def strCmp (x y : String) : POrd :=
  strCmpL x.data y.data

mutual

/-- Python ordering comparison (`<` and friends): defined between numbers,
between strings, between lists and between tuples (lexicographically);
anything else raises `TypeError`. -/
def pyCompare : Value → Value → Except PyExc POrd
  | .str a, .str b => .ok (strCmp a b)
  | .list xs, .list ys => pyCompareList xs ys
  | .tuple xs, .tuple ys => pyCompareList xs ys
  | a, b =>
    match asNum a, asNum b with
    | some (x, _), some (y, _) => .ok (ratCmp x y)
    | _, _ => .error (.typeError "ordering not supported between these operand types")

def pyCompareList : List Value → List Value → Except PyExc POrd
  | [], [] => .ok .eq
  | [], _ :: _ => .ok .lt
  | _ :: _, [] => .ok .gt
  | x :: xs, y :: ys =>
    match pyCompare x y with
    | .ok .eq => pyCompareList xs ys
    | .ok o => .ok o
    | .error e => .error e

end

/-! ## Python operator semantics

Semantics of the operators admitted by the evaluator's whitelist, restricted
to the value domain above.  Heterogeneous cases raise `TypeError`, division
and modulo by zero raise `ZeroDivisionError`, exactly as the corresponding
CPython operators do; these exceptions propagate out of `safe_eval` to its
callers. -/

/-- Is `sub` a prefix of `hay`? -/
def charsStart : List Char → List Char → Bool
  | _, [] => true
  | [], _ :: _ => false
  | a :: as_, b :: bs => a = b && charsStart as_ bs

/-- Does `hay` contain `sub` as a contiguous subsequence? -/
def charsContain : List Char → List Char → Bool
  | [], sub => sub.isEmpty
  | c :: rest, sub => charsStart (c :: rest) sub || charsContain rest sub

/-- Python `sub in hay` on strings: substring containment. -/
def strContains (hay sub : String) : Bool :=
  charsContain hay.data sub.data

/-- Loop of Python `str.replace`: left-to-right, non-overlapping.  The fuel
(`s.length + 1` at the top call) cannot run out because every step consumes
at least one character of `s` when `old` is non-empty, and the callers only
pass non-empty `old`. -/
def replaceGo : Nat → List Char → List Char → List Char → List Char
  | 0, s, _, _ => s
  | fuel + 1, s, old, new =>
    match s with
    | [] => []
    | c :: rest =>
      if !old.isEmpty && charsStart (c :: rest) old then
        new ++ replaceGo fuel ((c :: rest).drop old.length) old new
      else c :: replaceGo fuel rest old new

/-- Python `s.replace(old, new)` (all occurrences, left to right). -/
def pyReplace (s old new : String) : String :=
  ⟨replaceGo (s.data.length + 1) s.data old.data new.data⟩

/-- Python `s.startswith(p)`. -/
def pyStartsWith (s p : String) : Bool :=
  charsStart s.data p.data

/-- Python `a + b`. -/
def pyAdd : Value → Value → Except PyExc Value
  | .str x, .str y => .ok (.str (x ++ y))
  | .list x, .list y => .ok (.list (x ++ y))
  | .tuple x, .tuple y => .ok (.tuple (x ++ y))
  | a, b =>
    match asNum a, asNum b with
    | some (x, fx), some (y, fy) => .ok (mkNum (x + y) (fx || fy))
    | _, _ => .error (.typeError "unsupported operand type(s) for +")

/-- Python `a - b`. -/
def pySub (a b : Value) : Except PyExc Value :=
  match asNum a, asNum b with
  | some (x, fx), some (y, fy) => .ok (mkNum (x - y) (fx || fy))
  | _, _ => .error (.typeError "unsupported operand type(s) for -")

/-- Model of `s * n` / `n * s` string and list replication. -/
def pyRepeat (n : Int) (xs : List α) : List α :=
  (List.replicate n.toNat xs).flatten

/-- Python `a * b`: numeric product, or sequence replication by an int. -/
def pyMult : Value → Value → Except PyExc Value
  | .str x, b =>
    match asInt b with
    | some n => .ok (.str ⟨pyRepeat n x.data⟩)
    | Option.none => .error (.typeError "cannot multiply sequence by non-int")
  | a, .str y =>
    match asInt a with
    | some n => .ok (.str ⟨pyRepeat n y.data⟩)
    | Option.none => .error (.typeError "cannot multiply sequence by non-int")
  | .list x, b =>
    match asInt b with
    | some n => .ok (.list (pyRepeat n x))
    | Option.none => .error (.typeError "cannot multiply sequence by non-int")
  | a, .list y =>
    match asInt a with
    | some n => .ok (.list (pyRepeat n y))
    | Option.none => .error (.typeError "cannot multiply sequence by non-int")
  | .tuple x, b =>
    match asInt b with
    | some n => .ok (.tuple (pyRepeat n x))
    | Option.none => .error (.typeError "cannot multiply sequence by non-int")
  | a, .tuple y =>
    match asInt a with
    | some n => .ok (.tuple (pyRepeat n y))
    | Option.none => .error (.typeError "cannot multiply sequence by non-int")
  | a, b =>
    match asNum a, asNum b with
    | some (x, fx), some (y, fy) => .ok (mkNum (x * y) (fx || fy))
    | _, _ => .error (.typeError "unsupported operand type(s) for *")

/-- Python `a / b` (true division, always float; modeled exactly). -/
def pyDiv (a b : Value) : Except PyExc Value :=
  match asNum a, asNum b with
  | some (x, _), some (y, _) =>
    if y = 0 then .error (.zeroDivisionError "division by zero")
    else .ok (.float (x / y))
  | _, _ => .error (.typeError "unsupported operand type(s) for /")

/-- Python `a % b`: floor-style remainder (sign of the divisor).  String
formatting with `%` is outside the embedded value domain and is modeled as a
`TypeError`. -/
def pyMod (a b : Value) : Except PyExc Value :=
  match asNum a, asNum b with
  | some (x, fx), some (y, fy) =>
    if y = 0 then .error (.zeroDivisionError "integer division or modulo by zero")
    else .ok (mkNum (x - y * (⌊x / y⌋ : Int)) (fx || fy))
  | _, _ => .error (.typeError "unsupported operand type(s) for %")

/-- Placeholder for `x ** y` with a non-integral exponent: the result is a
transcendental number (or complex); no claim depends on its value, so it is
approximated by the power at the floored exponent. -/
def ratPowApprox (x y : ℚ) : ℚ :=
  x ^ ⌊y⌋

/-- Python `a ** b`.  An integral exponent is modeled exactly (a negative
exponent yields the exact rational where CPython yields a float). -/
def pyPow (a b : Value) : Except PyExc Value :=
  match asNum a, asNum b with
  | some (x, fx), some (y, fy) =>
    if y.den = 1 then
      if 0 ≤ y.num then .ok (mkNum (x ^ y.num.toNat) (fx || fy))
      else if x = 0 then
        .error (.zeroDivisionError "zero cannot be raised to a negative power")
      else .ok (.float (x ^ y.num))
    else .ok (.float (ratPowApprox x y))
  | _, _ => .error (.typeError "unsupported operand type(s) for **")

/-- Python floor division `a // b` (forbidden by the validator; semantics
included for completeness). -/
def pyFloorDiv (a b : Value) : Except PyExc Value :=
  match asNum a, asNum b with
  | some (x, fx), some (y, fy) =>
    if y = 0 then .error (.zeroDivisionError "integer division or modulo by zero")
    else .ok (mkNum ((⌊x / y⌋ : Int) : ℚ) (fx || fy))
  | _, _ => .error (.typeError "unsupported operand type(s) for //")

/-- Python unary minus. -/
def pyNeg (a : Value) : Except PyExc Value :=
  match asNum a with
  | some (x, fx) => .ok (mkNum (-x) fx)
  | Option.none => .error (.typeError "bad operand type for unary -")

/-- Python unary plus (note `+True == 1`, an int). -/
def pyPos (a : Value) : Except PyExc Value :=
  match asNum a with
  | some (x, fx) => .ok (mkNum x fx)
  | Option.none => .error (.typeError "bad operand type for unary +")

/-- Python `x in c`: substring test on strings, membership by `==` on lists
and tuples, key membership on dicts; other containers raise `TypeError`. -/
def pyIn : Value → Value → Except PyExc Bool
  | x, .str s =>
    match x with
    | .str sub => .ok (strContains s sub)
    | _ => .error (.typeError "in <string> requires string as left operand")
  | x, .list xs => .ok (xs.any (pyEq x))
  | x, .tuple xs => .ok (xs.any (pyEq x))
  | x, .dict kvs =>
    match x with
    | .str k => .ok (kvs.any fun kv => kv.1 == k)
    | .list _ => .error (.typeError "unhashable type")
    | .dict _ => .error (.typeError "unhashable type")
    | _ => .ok false
  | _, _ => .error (.typeError "argument is not iterable")

/-! ## The whitelisted helper functions -/

/-- Elements an iterable argument of `min`/`max` yields. -/
def pyIterate : Value → Except PyExc (List Value)
  | .list xs => .ok xs
  | .tuple xs => .ok xs
  | .str s => .ok (s.data.map fun c => .str (String.singleton c))
  | .dict kvs => .ok (kvs.map fun kv => .str kv.1)
  | _ => .error (.typeError "argument is not iterable")

/-- Fold of `min`/`max` over candidates: on ties the earliest wins. -/
def pickGo (isMin : Bool) (best : Value) : List Value → Except PyExc Value
  | [] => .ok best
  | v :: rest => do
    let o ← pyCompare v best
    match isMin, o with
    | true, .lt => pickGo isMin v rest
    | false, .gt => pickGo isMin v rest
    | _, _ => pickGo isMin best rest

/-- Model of `min`/`max` over a non-empty candidate list. -/
def pickOver (isMin : Bool) : List Value → Except PyExc Value
  | [] => .error (.valueError "arg is an empty sequence")
  | v :: rest => pickGo isMin v rest

/-- Round half to even on exact rationals (Python `round` with one
argument). -/
def rndHalfEven (q : ℚ) : Int :=
  let f : Int := ⌊q⌋
  let r : ℚ := q - (f : ℚ)
  if r < 1 / 2 then f
  else if 1 / 2 < r then f + 1
  else if f % 2 = 0 then f else f + 1

/-- Placeholder for `math.sqrt`: an integer-square-root based approximation;
no claim depends on the value, only on the domain check. -/
def ratSqrtApprox (q : ℚ) : ℚ :=
  ((Nat.sqrt (q.num.toNat * q.den) : ℚ)) / (q.den : ℚ)

/-- Placeholder for `math.log`: no claim depends on the value, only on the
domain check. -/
def ratLogApprox (q : ℚ) : ℚ :=
  (Nat.log2 (max 1 ⌊q⌋.toNat) : ℚ)

/-- Application of a whitelisted function to evaluated arguments.
`min`/`max`/`abs`/`round` are Python builtins, `floor`/`ceil`/`sqrt`/`log`
come from `math`.  Only the single-argument forms of `round`, `abs` and
`log` are modeled (the risk configs never pass more). -/
def pyCall (f : BFn) (args : List Value) : Except PyExc Value :=
  match f, args with
  | .bmin, vs =>
    match vs with
    | [] => .error (.typeError "min expected at least 1 argument, got 0")
    | [v] => do pickOver true (← pyIterate v)
    | _ => pickOver true vs
  | .bmax, vs =>
    match vs with
    | [] => .error (.typeError "max expected at least 1 argument, got 0")
    | [v] => do pickOver false (← pyIterate v)
    | _ => pickOver false vs
  | .babs, [a] =>
    match asNum a with
    | some (x, fx) => .ok (mkNum |x| fx)
    | Option.none => .error (.typeError "bad operand type for abs")
  | .bround, [a] =>
    match a with
    | .bool b => .ok (.int (if b then 1 else 0))
    | .int n => .ok (.int n)
    | .float q => .ok (.int (rndHalfEven q))
    | _ => .error (.typeError "type cannot be rounded")
  | .bfloor, [a] =>
    match asNum a with
    | some (x, _) => .ok (.int ⌊x⌋)
    | Option.none => .error (.typeError "must be a real number")
  | .bceil, [a] =>
    match asNum a with
    | some (x, _) => .ok (.int ⌈x⌉)
    | Option.none => .error (.typeError "must be a real number")
  | .bsqrt, [a] =>
    match asNum a with
    | some (x, _) =>
      if x < 0 then .error (.valueError "math domain error")
      else .ok (.float (ratSqrtApprox x))
    | Option.none => .error (.typeError "must be a real number")
  | .blog, [a] =>
    match asNum a with
    | some (x, _) =>
      if x ≤ 0 then .error (.valueError "math domain error")
      else .ok (.float (ratLogApprox x))
    | Option.none => .error (.typeError "must be a real number")
  | _, _ => .error (.typeError "wrong number of arguments")

/-! ## Python expression AST (the fragment reachable from `ast.parse(·, mode="eval")`)

Node names follow the `ast` module.  `BoolOp` chains are embedded as nested
binary nodes (CPython flattens `a or b or c` into one n-ary node; the
validator and the short-circuit semantics are insensitive to the
difference). -/

/-- Model of `ast.cmpop` — exactly the comparators the tokenizer can produce. -/
inductive CmpO where
  | ceq | cne | clt | cle | cgt | cge | cin | cnotin
  deriving Repr, DecidableEq

/-- Model of `ast.operator` (binary). `floordiv` is parseable but not whitelisted. -/
inductive BinO where
  | add | sub | mult | div | mod | pow | floordiv
  deriving Repr, DecidableEq

/-- Model of `ast.unaryop`. -/
inductive UnO where
  | uadd | usub | unot
  deriving Repr, DecidableEq

/-- Model of `ast.boolop`. -/
inductive BoolO where
  | band | bor
  deriving Repr, DecidableEq

/-- Model of `ast.Constant` payloads. -/
inductive PyConst where
  | cnone
  | cbool (b : Bool)
  | cint (n : Int)
  | cfloat (q : ℚ)
  | cstr (s : String)
  deriving Repr, DecidableEq

/-- Expression nodes.  `attribute`, `subscript`, `ifExp` and `lam` are
outside `_ALLOWED_NODES` and exist so that the validator's rejections can be
stated; `lam` drops its parameter list (the validator rejects the node
before parameters could matter). -/
inductive PyExpr where
  | const (c : PyConst)
  | name (id : String)
  | boolop (op : BoolO) (a b : PyExpr)
  | binop (op : BinO) (a b : PyExpr)
  | unaryop (op : UnO) (a : PyExpr)
  | compare (left : PyExpr) (rest : List (CmpO × PyExpr))
  | call (f : PyExpr) (args : List PyExpr)
  | listD (xs : List PyExpr)
  | tupleD (xs : List PyExpr)
  | attribute (v : PyExpr) (attr : String)
  | subscript (v : PyExpr) (idx : PyExpr)
  | ifExp (body test orelse : PyExpr)
  | lam (body : PyExpr)

/-! ## Tokenizer -/

/-- Lexical tokens. -/
inductive Tok where
  | tint (n : Nat)
  | tfloat (q : ℚ)
  | tstr (s : String)
  | tname (s : String)
  | tsym (s : String)
  deriving Repr, DecidableEq

/-- ASCII identifier characters (Python also allows non-ASCII identifiers;
the configs in this repository do not use them). -/
def isIdentChar (c : Char) : Bool :=
  c.isAlpha || c.isDigit || c = '_'

/-- Is `c` a string quote (`'` or `"`)?  Written via code points. -/
def isQuote (c : Char) : Bool :=
  c.toNat = 39 || c.toNat = 34

/-- Scan the digits of a natural number literal. -/
def scanDigits : List Char → Nat → Nat × List Char
  | c :: rest, acc =>
    if c.isDigit then scanDigits rest (acc * 10 + (c.toNat - 48))
    else (acc, c :: rest)
  | [], acc => (acc, [])

/-- Count then scan digits, returning (value, count, rest): used for the
fractional part. -/
def scanDigitsCnt : List Char → Nat → Nat → Nat × Nat × List Char
  | c :: rest, acc, k =>
    if c.isDigit then scanDigitsCnt rest (acc * 10 + (c.toNat - 48)) (k + 1)
    else (acc, k, c :: rest)
  | [], acc, k => (acc, k, [])

/-- Scan a numeric literal after its leading digits `ip`: optional
fractional part and optional exponent.  Returns the token and the rest. -/
def scanNumTail (ip : Nat) (cs : List Char) : Except PyExc (Tok × List Char) :=
  let fracStep : Bool × ℚ × List Char :=
    match cs with
    | c :: rest =>
      if c = '.' then
        let (fv, fk, rest2) := scanDigitsCnt rest 0 0
        (true, (ip : ℚ) + (fv : ℚ) / ((10 : ℚ) ^ fk), rest2)
      else (false, (ip : ℚ), cs)
    | [] => (false, (ip : ℚ), cs)
  let isFloat := fracStep.1
  let base := fracStep.2.1
  match fracStep.2.2 with
  | c :: rest =>
    if c = 'e' || c = 'E' then
      match rest with
      | d :: rest2 =>
        if d = '+' then
          let (ev, rest3) := scanDigits rest2 0
          .ok (.tfloat (base * (10 : ℚ) ^ ev), rest3)
        else if d = '-' then
          let (ev, rest3) := scanDigits rest2 0
          .ok (.tfloat (base / (10 : ℚ) ^ ev), rest3)
        else if d.isDigit then
          let (ev, rest3) := scanDigits (d :: rest2) 0
          .ok (.tfloat (base * (10 : ℚ) ^ ev), rest3)
        else if isFloat then .ok (.tfloat base, c :: rest)
        else .ok (.tint ip, c :: rest)
      | [] =>
        if isFloat then .ok (.tfloat base, c :: rest)
        else .ok (.tint ip, c :: rest)
    else if isFloat then .ok (.tfloat base, c :: rest)
    else .ok (.tint ip, c :: rest)
  | [] =>
    if isFloat then .ok (.tfloat base, [])
    else .ok (.tint ip, [])

/-- Scan a string literal body up to the closing quote `q`, handling the
common backslash escapes. -/
def scanStr (q : Char) : Nat → List Char → Except PyExc (List Char × List Char)
  | 0, _ => .error (.syntaxError "unterminated string literal")
  | _ + 1, [] => .error (.syntaxError "unterminated string literal")
  | fuel + 1, c :: rest =>
    if c = q then .ok ([], rest)
    else if c = '\\' then
      match rest with
      | [] => .error (.syntaxError "unterminated string literal")
      | e :: rest2 =>
        let ec : Char :=
          if e = 'n' then '\n'
          else if e = 't' then '\t'
          else e
        match scanStr q fuel rest2 with
        | .ok (s, r) => .ok (ec :: s, r)
        | .error ex => .error ex
    else
      match scanStr q fuel rest with
      | .ok (s, r) => .ok (c :: s, r)
      | .error ex => .error ex

/-- The tokenizer loop. -/
def tokenizeGo : Nat → List Char → Except PyExc (List Tok)
  | 0, _ => .error (.syntaxError "tokenizer out of fuel")
  | _ + 1, [] => .ok []
  | fuel + 1, c :: rest =>
    if c = ' ' || c = '\t' || c = '\n' || c = '\r' then tokenizeGo fuel rest
    else if c.isDigit then
      let (ip, rest2) := scanDigits (c :: rest) 0
      match scanNumTail ip rest2 with
      | .ok (t, rest3) =>
        match tokenizeGo fuel rest3 with
        | .ok ts => .ok (t :: ts)
        | .error e => .error e
      | .error e => .error e
    else if c = '.' && (match rest with | d :: _ => d.isDigit | [] => false) then
      match scanNumTail 0 (c :: rest) with
      | .ok (t, rest3) =>
        match tokenizeGo fuel rest3 with
        | .ok ts => .ok (t :: ts)
        | .error e => .error e
      | .error e => .error e
    else if c.isAlpha || c = '_' then
      let ident := (c :: rest).takeWhile isIdentChar
      let rest2 := (c :: rest).dropWhile isIdentChar
      match tokenizeGo fuel rest2 with
      | .ok ts => .ok (.tname ⟨ident⟩ :: ts)
      | .error e => .error e
    else if isQuote c then
      match scanStr c (rest.length + 1) rest with
      | .ok (s, rest2) =>
        match tokenizeGo fuel rest2 with
        | .ok ts => .ok (.tstr ⟨s⟩ :: ts)
        | .error e => .error e
      | .error e => .error e
    else
      let two : String :=
        match rest with
        | d :: _ => ⟨[c, d]⟩
        | [] => ⟨[c]⟩
      if two = "**" || two = "//" || two = "==" || two = "!=" || two = "<=" || two = ">=" then
        match tokenizeGo fuel (rest.drop 1) with
        | .ok ts => .ok (.tsym two :: ts)
        | .error e => .error e
      else if c = '+' || c = '-' || c = '*' || c = '/' || c = '%' || c = '(' ||
          c = ')' || c = '[' || c = ']' || c = ',' || c = '.' || c = '<' ||
          c = '>' || c = ':' || c = '=' then
        match tokenizeGo fuel rest with
        | .ok ts => .ok (.tsym (String.singleton c) :: ts)
        | .error e => .error e
      else .error (.syntaxError "invalid character")

/-- Tokenize a whole source string. -/
def tokenize (s : String) : Except PyExc (List Tok) :=
  tokenizeGo (s.length + 1) s.data

/-! ## Parser (recursive descent, fueled)

A model of CPython's expression grammar restricted to the constructs the
tokenizer can produce, with standard precedence: ternary/lambda, `or`,
`and`, `not`, comparisons (chained), `+ -`, `* / // %`, unary sign, `**`
(right-associative, binding over unary on the right), trailers
(call/attribute/subscript), atoms. -/

/-- Python keywords recognized by this parser. -/
def isKeyword (s : String) : Bool :=
  s == "and" || s == "or" || s == "not" || s == "in" || s == "is" ||
    s == "if" || s == "else" || s == "lambda" || s == "True" ||
    s == "False" || s == "None"

mutual

/-- Model of `test`: lambda or conditional expression. -/
def pTest : Nat → List Tok → Except PyExc (PyExpr × List Tok)
  | 0, _ => .error (.syntaxError "parser out of fuel")
  | fuel + 1, toks =>
    match toks with
    | .tname "lambda" :: rest => pLambdaParams fuel rest
    | _ => do
      let (a, rest) ← pOr fuel toks
      match rest with
      | .tname "if" :: rest2 => do
        let (c, rest3) ← pOr fuel rest2
        match rest3 with
        | .tname "else" :: rest4 => do
          let (e, rest5) ← pTest fuel rest4
          .ok (.ifExp a c e, rest5)
        | _ => .error (.syntaxError "expected else")
      | _ => .ok (a, rest)

/-- Skip a lambda parameter list (names and commas) up to `:`, then parse
the body. -/
def pLambdaParams : Nat → List Tok → Except PyExc (PyExpr × List Tok)
  | 0, _ => .error (.syntaxError "parser out of fuel")
  | fuel + 1, toks =>
    match toks with
    | .tsym ":" :: rest => do
      let (b, rest2) ← pTest fuel rest
      .ok (.lam b, rest2)
    | .tname n :: rest =>
      if isKeyword n then .error (.syntaxError "invalid lambda parameter")
      else pLambdaParams fuel rest
    | .tsym "," :: rest => pLambdaParams fuel rest
    | _ => .error (.syntaxError "invalid lambda parameter list")

/-- Model of `or_test`. -/
def pOr : Nat → List Tok → Except PyExc (PyExpr × List Tok)
  | 0, _ => .error (.syntaxError "parser out of fuel")
  | fuel + 1, toks => do
    let (a, rest) ← pAnd fuel toks
    pOrChain fuel a rest

def pOrChain : Nat → PyExpr → List Tok → Except PyExc (PyExpr × List Tok)
  | 0, _, _ => .error (.syntaxError "parser out of fuel")
  | fuel + 1, a, toks =>
    match toks with
    | .tname "or" :: rest => do
      let (b, rest2) ← pAnd fuel rest
      pOrChain fuel (.boolop .bor a b) rest2
    | _ => .ok (a, toks)

/-- Model of `and_test`. -/
def pAnd : Nat → List Tok → Except PyExc (PyExpr × List Tok)
  | 0, _ => .error (.syntaxError "parser out of fuel")
  | fuel + 1, toks => do
    let (a, rest) ← pNot fuel toks
    pAndChain fuel a rest

def pAndChain : Nat → PyExpr → List Tok → Except PyExc (PyExpr × List Tok)
  | 0, _, _ => .error (.syntaxError "parser out of fuel")
  | fuel + 1, a, toks =>
    match toks with
    | .tname "and" :: rest => do
      let (b, rest2) ← pNot fuel rest
      pAndChain fuel (.boolop .band a b) rest2
    | _ => .ok (a, toks)

/-- Model of `not_test`. -/
def pNot : Nat → List Tok → Except PyExc (PyExpr × List Tok)
  | 0, _ => .error (.syntaxError "parser out of fuel")
  | fuel + 1, toks =>
    match toks with
    | .tname "not" :: rest => do
      let (a, rest2) ← pNot fuel rest
      .ok (.unaryop .unot a, rest2)
    | _ => pComp fuel toks

/-- Model of `comparison` with chained comparators. -/
def pComp : Nat → List Tok → Except PyExc (PyExpr × List Tok)
  | 0, _ => .error (.syntaxError "parser out of fuel")
  | fuel + 1, toks => do
    let (a, rest) ← pArith fuel toks
    let (chain, rest2) ← pCompChain fuel rest
    match chain with
    | [] => .ok (a, rest2)
    | _ => .ok (.compare a chain, rest2)

def pCompChain : Nat → List Tok → Except PyExc (List (CmpO × PyExpr) × List Tok)
  | 0, _ => .error (.syntaxError "parser out of fuel")
  | fuel + 1, toks =>
    let withOp (op : CmpO) (rest : List Tok) :
        Except PyExc (List (CmpO × PyExpr) × List Tok) := do
      let (b, rest2) ← pArith fuel rest
      let (more, rest3) ← pCompChain fuel rest2
      .ok ((op, b) :: more, rest3)
    match toks with
    | .tsym "==" :: rest => withOp .ceq rest
    | .tsym "!=" :: rest => withOp .cne rest
    | .tsym "<=" :: rest => withOp .cle rest
    | .tsym ">=" :: rest => withOp .cge rest
    | .tsym "<" :: rest => withOp .clt rest
    | .tsym ">" :: rest => withOp .cgt rest
    | .tname "in" :: rest => withOp .cin rest
    | .tname "not" :: .tname "in" :: rest => withOp .cnotin rest
    | .tname "is" :: _ => .error (.syntaxError "is comparisons are not modeled")
    | _ => .ok ([], toks)

/-- Model of `arith_expr`: `+`/`-`, left associative. -/
def pArith : Nat → List Tok → Except PyExc (PyExpr × List Tok)
  | 0, _ => .error (.syntaxError "parser out of fuel")
  | fuel + 1, toks => do
    let (a, rest) ← pTerm fuel toks
    pArithChain fuel a rest

def pArithChain : Nat → PyExpr → List Tok → Except PyExc (PyExpr × List Tok)
  | 0, _, _ => .error (.syntaxError "parser out of fuel")
  | fuel + 1, a, toks =>
    match toks with
    | .tsym "+" :: rest => do
      let (b, rest2) ← pTerm fuel rest
      pArithChain fuel (.binop .add a b) rest2
    | .tsym "-" :: rest => do
      let (b, rest2) ← pTerm fuel rest
      pArithChain fuel (.binop .sub a b) rest2
    | _ => .ok (a, toks)

/-- Model of `term`: `*`, `/`, `//`, `%`, left associative. -/
def pTerm : Nat → List Tok → Except PyExc (PyExpr × List Tok)
  | 0, _ => .error (.syntaxError "parser out of fuel")
  | fuel + 1, toks => do
    let (a, rest) ← pFactor fuel toks
    pTermChain fuel a rest

def pTermChain : Nat → PyExpr → List Tok → Except PyExc (PyExpr × List Tok)
  | 0, _, _ => .error (.syntaxError "parser out of fuel")
  | fuel + 1, a, toks =>
    match toks with
    | .tsym "*" :: rest => do
      let (b, rest2) ← pFactor fuel rest
      pTermChain fuel (.binop .mult a b) rest2
    | .tsym "/" :: rest => do
      let (b, rest2) ← pFactor fuel rest
      pTermChain fuel (.binop .div a b) rest2
    | .tsym "//" :: rest => do
      let (b, rest2) ← pFactor fuel rest
      pTermChain fuel (.binop .floordiv a b) rest2
    | .tsym "%" :: rest => do
      let (b, rest2) ← pFactor fuel rest
      pTermChain fuel (.binop .mod a b) rest2
    | _ => .ok (a, toks)

/-- Model of `factor`: unary sign. -/
def pFactor : Nat → List Tok → Except PyExc (PyExpr × List Tok)
  | 0, _ => .error (.syntaxError "parser out of fuel")
  | fuel + 1, toks =>
    match toks with
    | .tsym "+" :: rest => do
      let (a, rest2) ← pFactor fuel rest
      .ok (.unaryop .uadd a, rest2)
    | .tsym "-" :: rest => do
      let (a, rest2) ← pFactor fuel rest
      .ok (.unaryop .usub a, rest2)
    | _ => pPower fuel toks

/-- Model of `power`: `**` is right-associative and binds the unary on its right. -/
def pPower : Nat → List Tok → Except PyExc (PyExpr × List Tok)
  | 0, _ => .error (.syntaxError "parser out of fuel")
  | fuel + 1, toks => do
    let (a, rest) ← pPost fuel toks
    match rest with
    | .tsym "**" :: rest2 => do
      let (b, rest3) ← pFactor fuel rest2
      .ok (.binop .pow a b, rest3)
    | _ => .ok (a, rest)

/-- Atom followed by trailers. -/
def pPost : Nat → List Tok → Except PyExc (PyExpr × List Tok)
  | 0, _ => .error (.syntaxError "parser out of fuel")
  | fuel + 1, toks => do
    let (a, rest) ← pAtom fuel toks
    pTrailers fuel a rest

/-- Call, attribute and subscript trailers. -/
def pTrailers : Nat → PyExpr → List Tok → Except PyExc (PyExpr × List Tok)
  | 0, _, _ => .error (.syntaxError "parser out of fuel")
  | fuel + 1, a, toks =>
    match toks with
    | .tsym "(" :: .tsym ")" :: rest => pTrailers fuel (.call a []) rest
    | .tsym "(" :: rest => do
      let (args, _, rest2) ← pExprList fuel rest
      match rest2 with
      | .tsym ")" :: rest3 => pTrailers fuel (.call a args) rest3
      | _ => .error (.syntaxError "expected closing parenthesis")
    | .tsym "." :: .tname n :: rest =>
      if isKeyword n then .error (.syntaxError "invalid attribute name")
      else pTrailers fuel (.attribute a n) rest
    | .tsym "[" :: rest => do
      let (i, rest2) ← pTest fuel rest
      match rest2 with
      | .tsym "]" :: rest3 => pTrailers fuel (.subscript a i) rest3
      | _ => .error (.syntaxError "expected closing bracket")
    | _ => .ok (a, toks)

/-- Comma-separated expression list; the flag records a trailing comma. -/
def pExprList : Nat → List Tok → Except PyExc (List PyExpr × Bool × List Tok)
  | 0, _ => .error (.syntaxError "parser out of fuel")
  | fuel + 1, toks => do
    let (e, rest) ← pTest fuel toks
    match rest with
    | .tsym "," :: rest2 =>
      match rest2 with
      | .tsym ")" :: _ => .ok ([e], true, rest2)
      | .tsym "]" :: _ => .ok ([e], true, rest2)
      | _ => do
        let (es, tr, rest3) ← pExprList fuel rest2
        .ok (e :: es, tr, rest3)
    | _ => .ok ([e], false, rest)

/-- Adjacent string-literal concatenation and atoms. -/
def pAtom : Nat → List Tok → Except PyExc (PyExpr × List Tok)
  | 0, _ => .error (.syntaxError "parser out of fuel")
  | fuel + 1, toks =>
    match toks with
    | .tint n :: rest => .ok (.const (.cint (n : Int)), rest)
    | .tfloat q :: rest => .ok (.const (.cfloat q), rest)
    | .tstr s :: rest => pStrConcat fuel s rest
    | .tname "True" :: rest => .ok (.const (.cbool true), rest)
    | .tname "False" :: rest => .ok (.const (.cbool false), rest)
    | .tname "None" :: rest => .ok (.const .cnone, rest)
    | .tname n :: rest =>
      if isKeyword n then .error (.syntaxError "invalid syntax")
      else .ok (.name n, rest)
    | .tsym "(" :: .tsym ")" :: rest => .ok (.tupleD [], rest)
    | .tsym "(" :: rest => do
      let (es, tr, rest2) ← pExprList fuel rest
      match rest2 with
      | .tsym ")" :: rest3 =>
        match es, tr with
        | [e], false => .ok (e, rest3)
        | _, _ => .ok (.tupleD es, rest3)
      | _ => .error (.syntaxError "expected closing parenthesis")
    | .tsym "[" :: .tsym "]" :: rest => .ok (.listD [], rest)
    | .tsym "[" :: rest => do
      let (es, _, rest2) ← pExprList fuel rest
      match rest2 with
      | .tsym "]" :: rest3 => .ok (.listD es, rest3)
      | _ => .error (.syntaxError "expected closing bracket")
    | _ => .error (.syntaxError "invalid syntax")

/-- Python concatenates adjacent string literals. -/
def pStrConcat : Nat → String → List Tok → Except PyExc (PyExpr × List Tok)
  | 0, _, _ => .error (.syntaxError "parser out of fuel")
  | fuel + 1, s, toks =>
    match toks with
    | .tstr s2 :: rest => pStrConcat fuel (s ++ s2) rest
    | _ => .ok (.const (.cstr s), toks)

end

/-- Model of `ast.parse(expr, mode="eval")`: tokenize, parse one `test`,
require the input to be exhausted. -/
def pyParse (s : String) : Except PyExc PyExpr := do
  let toks ← tokenize s
  let (e, rest) ← pTest (20 * (toks.length + 1)) toks
  match rest with
  | [] => .ok e
  | _ => .error (.syntaxError "invalid syntax")

/-! ## Validator (`ctrl.risk.expr._validate`)

The source walks every node with `ast.walk` and raises
`ValueError(f"Unsafe expression: ...")` (via `_deny`) at the first
offending node.  `Attribute`, `Subscript`, `IfExp` and `Lambda` are outside
`_ALLOWED_NODES`, so the generic "disallowed node" check fires for them.
The recursive traversal below visits nodes in a different order than
`ast.walk` (DFS rather than BFS), which can only affect *which* violation
is reported, never whether one is. -/

/-- Membership in `_ALLOWED_FUNCS`. -/
def allowedFuncName (s : String) : Bool :=
  s == "min" || s == "max" || s == "abs" || s == "round" || s == "floor" ||
    s == "ceil" || s == "sqrt" || s == "log"

/-- Model of `_deny(msg)`: `raise ValueError(f"Unsafe expression: {msg}")`. -/
def denyMsg (msg : String) : PyExc :=
  .valueError ("Unsafe expression: " ++ msg)

/-- Model of `isinstance(n.func, ast.Name)` discrimination for call nodes. -/
def funcNameOf : PyExpr → Option String
  | .name id => some id
  | _ => Option.none

mutual

/-- Model of `ctrl.risk.expr._validate`. -/
def validateE : PyExpr → Except PyExc Unit
  | .const _ => .ok ()
  | .name id =>
    if pyStartsWith id "__" then .error (denyMsg "dunder names not allowed")
    else .ok ()
  | .boolop _ a b => do
    validateE a
    validateE b
  | .binop op a b =>
    if op = .floordiv then .error (denyMsg "binop FloorDiv not allowed")
    else do
      validateE a
      validateE b
  | .unaryop _ a => validateE a
  | .compare l rest => do
    validateE l
    validateChain rest
  | .call f args =>
    match funcNameOf f with
    | some id =>
      if allowedFuncName id then validateList args
      else .error (denyMsg ("function " ++ id ++ " not allowed"))
    | Option.none => .error (denyMsg "only simple function calls allowed")
  | .listD xs => validateList xs
  | .tupleD xs => validateList xs
  | .attribute _ _ => .error (denyMsg "disallowed node: Attribute")
  | .subscript _ _ => .error (denyMsg "disallowed node: Subscript")
  | .ifExp _ _ _ => .error (denyMsg "disallowed node: IfExp")
  | .lam _ => .error (denyMsg "disallowed node: Lambda")

def validateChain : List (CmpO × PyExpr) → Except PyExc Unit
  | [] => .ok ()
  | (_, e) :: rest => do
    validateE e
    validateChain rest

def validateList : List PyExpr → Except PyExc Unit
  | [] => .ok ()
  | e :: rest => do
    validateE e
    validateList rest

end

/-! ## Interpreter

The source compiles the validated AST and runs CPython `eval` with
`{"__builtins__": {}}` as globals and `dict(_ALLOWED_FUNCS) | vars` as
locals.  The interpreter below gives the same semantics on the embedded
value domain. -/

/-- Value of an `ast.Constant`. -/
def constVal : PyConst → Value
  | .cnone => .none
  | .cbool b => .bool b
  | .cint n => .int n
  | .cfloat q => .float q
  | .cstr s => .str s

/-- Name resolution: the locals mapping is `dict(_ALLOWED_FUNCS)` updated
with `vars`, so user bindings shadow the whitelisted functions; a miss is a
`NameError` (the empty `__builtins__` offers nothing). -/
def lookupName (vars : Bindings) (id : String) : Except PyExc Value :=
  match vars.lookup id with
  | some v => .ok v
  | Option.none =>
    if id == "min" then .ok (.builtin .bmin)
    else if id == "max" then .ok (.builtin .bmax)
    else if id == "abs" then .ok (.builtin .babs)
    else if id == "round" then .ok (.builtin .bround)
    else if id == "floor" then .ok (.builtin .bfloor)
    else if id == "ceil" then .ok (.builtin .bceil)
    else if id == "sqrt" then .ok (.builtin .bsqrt)
    else if id == "log" then .ok (.builtin .blog)
    else .error (.nameError ("name " ++ id ++ " is not defined"))

/-- One comparison step of a (possibly chained) comparison. -/
def applyCmp (op : CmpO) (a b : Value) : Except PyExc Bool :=
  match op with
  | .ceq => .ok (pyEq a b)
  | .cne => .ok (!pyEq a b)
  | .clt => do
    let o ← pyCompare a b
    .ok (o == .lt)
  | .cle => do
    let o ← pyCompare a b
    .ok (o == .lt || o == .eq)
  | .cgt => do
    let o ← pyCompare a b
    .ok (o == .gt)
  | .cge => do
    let o ← pyCompare a b
    .ok (o == .gt || o == .eq)
  | .cin => pyIn a b
  | .cnotin => do
    let m ← pyIn a b
    .ok (!m)

/-- Dispatch of a binary operator. -/
def applyBin (op : BinO) (a b : Value) : Except PyExc Value :=
  match op with
  | .add => pyAdd a b
  | .sub => pySub a b
  | .mult => pyMult a b
  | .div => pyDiv a b
  | .mod => pyMod a b
  | .pow => pyPow a b
  | .floordiv => pyFloorDiv a b

mutual

/-- Expression evaluation.  `attribute`/`subscript`/`lam` are unreachable
after validation; their modeled behavior (raising `TypeError`) stands in
for CPython semantics that are outside the embedded value domain. -/
def evalE (vars : Bindings) : PyExpr → Except PyExc Value
  | .const c => .ok (constVal c)
  | .name id => lookupName vars id
  | .boolop .band a b => do
    let va ← evalE vars a
    if pyTruthy va then evalE vars b else .ok va
  | .boolop .bor a b => do
    let va ← evalE vars a
    if pyTruthy va then .ok va else evalE vars b
  | .binop op a b => do
    let va ← evalE vars a
    let vb ← evalE vars b
    applyBin op va vb
  | .unaryop .unot a => do
    let va ← evalE vars a
    .ok (.bool (!pyTruthy va))
  | .unaryop .usub a => do
    let va ← evalE vars a
    pyNeg va
  | .unaryop .uadd a => do
    let va ← evalE vars a
    pyPos va
  | .compare l rest => do
    let vl ← evalE vars l
    evalChain vars vl rest
  | .call f args => do
    let vf ← evalE vars f
    let vas ← evalArgs vars args
    match vf with
    | .builtin bf => pyCall bf vas
    | _ => .error (.typeError "object is not callable")
  | .listD xs => do
    let vs ← evalArgs vars xs
    .ok (.list vs)
  | .tupleD xs => do
    let vs ← evalArgs vars xs
    .ok (.tuple vs)
  | .attribute v _ => do
    let _ ← evalE vars v
    .error (.typeError "attribute access is outside the modeled value domain")
  | .subscript v i => do
    let _ ← evalE vars v
    let _ ← evalE vars i
    .error (.typeError "subscripting is outside the modeled value domain")
  | .ifExp b t e => do
    let vt ← evalE vars t
    if pyTruthy vt then evalE vars b else evalE vars e
  | .lam _ => .error (.typeError "lambdas are outside the modeled value domain")

/-- Chained comparison with short-circuit, e.g. `a < b < c`. -/
def evalChain (vars : Bindings) (left : Value) :
    List (CmpO × PyExpr) → Except PyExc Value
  | [] => .ok (.bool true)
  | (op, rhs) :: rest => do
    let vr ← evalE vars rhs
    let b ← applyCmp op left vr
    if b then evalChain vars vr rest else .ok (.bool false)

/-- Left-to-right evaluation of argument / element lists. -/
def evalArgs (vars : Bindings) : List PyExpr → Except PyExc (List Value)
  | [] => .ok []
  | e :: rest => do
    let v ← evalE vars e
    let vs ← evalArgs vars rest
    .ok (v :: vs)

end

/-- Model of `ctrl.risk.expr.safe_eval`: parse, validate, then evaluate.  Any
failure in any stage is a raised Python exception, modeled as the error
component of `Except`. -/
def safe_eval (expr : String) (vars : Bindings) : Except PyExc Value := do
  let node ← pyParse expr
  validateE node
  evalE vars node

/-! ## Condition checkers (`ctrl.policy.conditions`) -/

/-- The bindings `ctx` built by `_eval_condition`: the risk dict itself plus
`risk_score = risk.get("score", 0)` and `risk_mode = risk.get("mode",
"safe")`. -/
def conditionCtx (risk : Bindings) : Bindings :=
  [("risk", .dict risk),
   ("risk_score", ((risk.lookup "score").getD (.int 0))),
   ("risk_mode", ((risk.lookup "mode").getD (.str "safe")))]

/-- The textual normalization `_eval_condition` applies before parsing:
`expr.replace("risk.score", "risk_score").replace("risk.mode", "risk_mode")`. -/
def normalizeCondition (e : String) : String :=
  pyReplace (pyReplace e "risk.score" "risk_score") "risk.mode" "risk_mode"

/-- Model of `ctrl.policy.conditions._eval_condition`.  `if not expr:` treats both
`None` and the empty string as a missing expression. -/
def _eval_condition (expr : Option String) (risk : Bindings)
    (default_on_error : Bool) : Bool :=
  match expr with
  | Option.none => false
  | some e =>
    if e = "" then false
    else
      match safe_eval (normalizeCondition e) (conditionCtx risk) with
      | .ok v => pyTruthy v
      | .error _ => default_on_error

/-- Model of `ctrl.policy.conditions.requires_approval` (fail-closed: default true). -/
def requires_approval (expr : Option String) (risk : Bindings) : Bool :=
  _eval_condition expr risk true

/-- Model of `ctrl.policy.conditions.denies_action` (fail-closed: default true). -/
def denies_action (expr : Option String) (risk : Bindings) : Bool :=
  _eval_condition expr risk true

/-! ## Claims about the evaluator and the condition checkers -/

/-- C2: The approval and deny condition checkers fail closed: when the
condition expression passes the presence guard (is not `None` and not the
empty string, cf. C10) but parsing, validation or evaluation of it raises,
`requires_approval` returns `true` and `denies_action` returns `true`; an
absent expression yields `false`. -/
theorem conditions_fail_closed (risk : Bindings) :
    (∀ (expr : String) (exc : PyExc), expr ≠ "" →
      safe_eval (normalizeCondition expr) (conditionCtx risk) = .error exc →
      requires_approval (some expr) risk = true ∧
        denies_action (some expr) risk = true) ∧
    requires_approval Option.none risk = false := by
  constructor
  · intro expr exc hne herr
    unfold requires_approval denies_action _eval_condition
    simp only [if_neg hne, herr]
    exact ⟨trivial, trivial⟩
  · rfl

/-- Witness for `conditions_fail_closed`: a raising expression (`1/0`) and a
malformed one (`((`) both force approval and denial. -/
theorem conditions_fail_closed_witness :
    (requires_approval (some "1/0") [("score", Value.int 10)] = true ∧
      denies_action (some "1/0") [("score", Value.int 10)] = true) ∧
    (requires_approval (some "((") [] = true ∧ denies_action (some "((") [] = true) ∧
    requires_approval Option.none [] = false :=
  ⟨(conditions_fail_closed [("score", Value.int 10)]).1 "1/0"
      (.zeroDivisionError "division by zero") (by decide) rfl,
    (conditions_fail_closed []).1 "((" (.syntaxError "invalid syntax") (by decide) rfl,
    (conditions_fail_closed []).2⟩

/-- C3 (counterexample): the evaluator does raise arbitrary host-language
errors to its callers — evaluating `1/0` surfaces `ZeroDivisionError`, not a
dedicated `ExprError` (no such wrapper exists anywhere in the source). -/
theorem safe_eval_raises_host_errors :
    safe_eval "1/0" [] = .error (.zeroDivisionError "division by zero") ∧
    safe_eval "len" [] = .error (.nameError "name len is not defined") ∧
    safe_eval "1 + 'a'" [] = .error (.typeError "unsupported operand type(s) for +") :=
  ⟨rfl, rfl, rfl⟩

/-- C3 (amended): every error surfaces to the caller as a raised exception
carried in the result; parse failures and validation rejections surface
before any evaluation — identically for all variable bindings — while
evaluation failures surface as the host-language exceptions themselves. -/
theorem safe_eval_error_propagation (s : String) (vars vars2 : Bindings) :
    (∀ exc, pyParse s = .error exc → safe_eval s vars = .error exc) ∧
    (∀ ast exc, pyParse s = .ok ast → validateE ast = .error exc →
      safe_eval s vars = .error exc ∧ safe_eval s vars2 = .error exc) := by
  constructor
  · intro exc hp
    unfold safe_eval
    rw [hp]
    rfl
  · intro ast exc hp hv
    have h : ∀ vs : Bindings, safe_eval s vs = .error exc := by
      intro vs
      unfold safe_eval
      rw [hp]
      show (validateE ast >>= fun _ => evalE vs ast) = Except.error exc
      rw [hv]
      rfl
    exact ⟨h vars, h vars2⟩

/-- Witness for `safe_eval_error_propagation`: a malformed expression and a
rejected one propagate their exception for any bindings. -/
theorem safe_eval_error_propagation_witness :
    safe_eval "((" [("x", Value.int 1)] = .error (.syntaxError "invalid syntax") ∧
    safe_eval "a.b" [("a", Value.int 1)] = .error (denyMsg "disallowed node: Attribute") ∧
    safe_eval "a.b" [] = .error (denyMsg "disallowed node: Attribute") :=
  ⟨(safe_eval_error_propagation "((" [("x", Value.int 1)] []).1
      (.syntaxError "invalid syntax") rfl,
    (safe_eval_error_propagation "a.b" [("a", Value.int 1)] []).2
      (.attribute (.name "a") "b") (denyMsg "disallowed node: Attribute") rfl rfl⟩

/-- C10: an empty-string condition expression is treated as absent rather
than malformed: both checkers return `false` (the permissive side) for
`""`, exactly as for `None`, because `if not expr` is taken for every falsy
value. -/
theorem empty_condition_is_absent (risk : Bindings) :
    requires_approval (some "") risk = false ∧
    denies_action (some "") risk = false ∧
    requires_approval Option.none risk = false ∧
    denies_action Option.none risk = false :=
  ⟨rfl, rfl, rfl, rfl⟩

/-- Witness for `empty_condition_is_absent` at a concrete risk dict. -/
theorem empty_condition_is_absent_witness :
    requires_approval (some "") [("score", Value.int 99), ("mode", Value.str "danger")] = false ∧
    denies_action (some "") [("score", Value.int 99), ("mode", Value.str "danger")] = false ∧
    requires_approval Option.none [("score", Value.int 99), ("mode", Value.str "danger")] = false ∧
    denies_action Option.none [("score", Value.int 99), ("mode", Value.str "danger")] = false :=
  empty_condition_is_absent [("score", Value.int 99), ("mode", Value.str "danger")]

/-! ## C5: forbidden constructs are rejected at validation time

`hasForbidden` is the claim-side predicate, written from the claim's own
enumeration: attribute access, subscripting, dunder names, calls to
anything but a whitelisted bare name, and constructs outside the permitted
grammar (conditional expressions, lambdas, floor division).  It is proved
below that the source's validator rejects every such expression with an
`Unsafe expression` `ValueError`, for all variable bindings — i.e. before
any evaluation. -/

mutual

/-- Does the expression contain a construct the specification forbids? -/
def hasForbidden : PyExpr → Bool
  | .const _ => false
  | .name id => pyStartsWith id "__"
  | .boolop _ a b => hasForbidden a || hasForbidden b
  | .binop op a b => op == .floordiv || hasForbidden a || hasForbidden b
  | .unaryop _ a => hasForbidden a
  | .compare l rest => hasForbidden l || hasForbiddenChain rest
  | .call f args =>
    (match funcNameOf f with
     | some id => !allowedFuncName id
     | Option.none => true) || hasForbiddenList args
  | .listD xs => hasForbiddenList xs
  | .tupleD xs => hasForbiddenList xs
  | .attribute _ _ => true
  | .subscript _ _ => true
  | .ifExp _ _ _ => true
  | .lam _ => true

def hasForbiddenChain : List (CmpO × PyExpr) → Bool
  | [] => false
  | (_, e) :: rest => hasForbidden e || hasForbiddenChain rest

def hasForbiddenList : List PyExpr → Bool
  | [] => false
  | e :: rest => hasForbidden e || hasForbiddenList rest

end

theorem safe_eval_of_parse_err (s : String) (vars : Bindings) (exc : PyExc)
    (hp : pyParse s = .error exc) : safe_eval s vars = .error exc := by
  unfold safe_eval
  rw [hp]
  rfl

theorem safe_eval_of_validate_err (s : String) (vars : Bindings) (ast : PyExpr)
    (exc : PyExc) (hp : pyParse s = .ok ast) (hv : validateE ast = .error exc) :
    safe_eval s vars = .error exc := by
  unfold safe_eval
  rw [hp]
  show (validateE ast >>= fun _ => evalE vars ast) = Except.error exc
  rw [hv]
  rfl

mutual

/-- Every error produced by the validator is a `_deny` rejection. -/
theorem validateE_err_is_deny : ∀ (ast : PyExpr) (exc : PyExc),
    validateE ast = .error exc → ∃ msg, exc = denyMsg msg
  | .const _, _, h => by simp [validateE] at h
  | .name id, exc, h => by
    by_cases hd : pyStartsWith id "__" = true
    · refine ⟨"dunder names not allowed", ?_⟩
      simp [validateE, hd] at h
      exact h.symm
    · simp [validateE, hd] at h
  | .boolop op a b, exc, h => by
    rw [show validateE (.boolop op a b) = (do
        validateE a
        validateE b) from rfl] at h
    cases hva : validateE a with
    | error e =>
      rw [hva] at h
      cases h
      exact validateE_err_is_deny a exc hva
    | ok u =>
      rw [hva] at h
      cases u
      exact validateE_err_is_deny b exc h
  | .binop op a b, exc, h => by
    by_cases hf : op = .floordiv
    · subst hf
      refine ⟨"binop FloorDiv not allowed", ?_⟩
      simp [validateE] at h
      exact h.symm
    · rw [show validateE (.binop op a b) = (if op = .floordiv
          then .error (denyMsg "binop FloorDiv not allowed")
          else do
            validateE a
            validateE b) from rfl, if_neg hf] at h
      cases hva : validateE a with
      | error e =>
        rw [hva] at h
        cases h
        exact validateE_err_is_deny a exc hva
      | ok u =>
        rw [hva] at h
        cases u
        exact validateE_err_is_deny b exc h
  | .unaryop op a, exc, h => by
    rw [show validateE (.unaryop op a) = validateE a from rfl] at h
    exact validateE_err_is_deny a exc h
  | .compare l rest, exc, h => by
    rw [show validateE (.compare l rest) = (do
        validateE l
        validateChain rest) from rfl] at h
    cases hvl : validateE l with
    | error e =>
      rw [hvl] at h
      cases h
      exact validateE_err_is_deny l exc hvl
    | ok u =>
      rw [hvl] at h
      cases u
      exact validateChain_err_is_deny rest exc h
  | .call f args, exc, h => by
    rw [show validateE (.call f args) = (match funcNameOf f with
        | some id =>
          if allowedFuncName id then validateList args
          else .error (denyMsg ("function " ++ id ++ " not allowed"))
        | Option.none => .error (denyMsg "only simple function calls allowed")) from rfl] at h
    cases hfn : funcNameOf f with
    | some id =>
      rw [hfn] at h
      by_cases ha : allowedFuncName id = true
      · simp only [if_pos ha] at h
        exact validateList_err_is_deny args exc h
      · simp only [if_neg ha] at h
        exact ⟨"function " ++ id ++ " not allowed", by
          cases h
          rfl⟩
    | none =>
      rw [hfn] at h
      cases h
      exact ⟨"only simple function calls allowed", rfl⟩
  | .listD xs, exc, h => by
    rw [show validateE (.listD xs) = validateList xs from rfl] at h
    exact validateList_err_is_deny xs exc h
  | .tupleD xs, exc, h => by
    rw [show validateE (.tupleD xs) = validateList xs from rfl] at h
    exact validateList_err_is_deny xs exc h
  | .attribute v a, exc, h => by
    cases h
    exact ⟨"disallowed node: Attribute", rfl⟩
  | .subscript v i, exc, h => by
    cases h
    exact ⟨"disallowed node: Subscript", rfl⟩
  | .ifExp b t e, exc, h => by
    cases h
    exact ⟨"disallowed node: IfExp", rfl⟩
  | .lam b, exc, h => by
    cases h
    exact ⟨"disallowed node: Lambda", rfl⟩

theorem validateChain_err_is_deny : ∀ (rest : List (CmpO × PyExpr)) (exc : PyExc),
    validateChain rest = .error exc → ∃ msg, exc = denyMsg msg
  | [], _, h => by simp [validateChain] at h
  | (op, e) :: rest, exc, h => by
    rw [show validateChain ((op, e) :: rest) = (do
        validateE e
        validateChain rest) from rfl] at h
    cases hve : validateE e with
    | error e2 =>
      rw [hve] at h
      cases h
      exact validateE_err_is_deny e exc hve
    | ok u =>
      rw [hve] at h
      cases u
      exact validateChain_err_is_deny rest exc h

theorem validateList_err_is_deny : ∀ (xs : List PyExpr) (exc : PyExc),
    validateList xs = .error exc → ∃ msg, exc = denyMsg msg
  | [], _, h => by simp [validateList] at h
  | e :: rest, exc, h => by
    rw [show validateList (e :: rest) = (do
        validateE e
        validateList rest) from rfl] at h
    cases hve : validateE e with
    | error e2 =>
      rw [hve] at h
      cases h
      exact validateE_err_is_deny e exc hve
    | ok u =>
      rw [hve] at h
      cases u
      exact validateList_err_is_deny rest exc h

end

mutual

/-- A forbidden construct anywhere in the tree forces a validation error. -/
theorem hasForbidden_validateE : ∀ (ast : PyExpr), hasForbidden ast = true →
    ∃ exc, validateE ast = .error exc
  | .name id, h => by
    have hd : pyStartsWith id "__" = true := by
      simpa [hasForbidden] using h
    exact ⟨denyMsg "dunder names not allowed", by simp [validateE, hd]⟩
  | .boolop op a b, h => by
    rw [show validateE (.boolop op a b) = (do
        validateE a
        validateE b) from rfl]
    cases hva : validateE a with
    | error e => exact ⟨e, rfl⟩
    | ok u =>
      cases u
      have hab : hasForbidden a = true ∨ hasForbidden b = true := by
        simpa [hasForbidden, Bool.or_eq_true] using h
      cases hab with
      | inl ha =>
        obtain ⟨e, he⟩ := hasForbidden_validateE a ha
        rw [he] at hva
        cases hva
      | inr hb =>
        obtain ⟨e, he⟩ := hasForbidden_validateE b hb
        rw [he]
        exact ⟨e, rfl⟩
  | .binop op a b, h => by
    by_cases hf : op = .floordiv
    · subst hf
      exact ⟨denyMsg "binop FloorDiv not allowed", by simp [validateE]⟩
    · rw [show validateE (.binop op a b) = (if op = .floordiv
          then .error (denyMsg "binop FloorDiv not allowed")
          else do
            validateE a
            validateE b) from rfl, if_neg hf]
      cases hva : validateE a with
      | error e => exact ⟨e, rfl⟩
      | ok u =>
        cases u
        have hbe : (op == BinO.floordiv) = false := by
          simp [hf]
        have hab : hasForbidden a = true ∨ hasForbidden b = true := by
          have hh := h
          rw [show hasForbidden (.binop op a b)
              = (op == .floordiv || hasForbidden a || hasForbidden b) from rfl, hbe] at hh
          simpa [Bool.or_eq_true] using hh
        cases hab with
        | inl ha =>
          obtain ⟨e, he⟩ := hasForbidden_validateE a ha
          rw [he] at hva
          cases hva
        | inr hb =>
          obtain ⟨e, he⟩ := hasForbidden_validateE b hb
          rw [he]
          exact ⟨e, rfl⟩
  | .unaryop op a, h => by
    rw [show validateE (.unaryop op a) = validateE a from rfl]
    exact hasForbidden_validateE a (by simpa [hasForbidden] using h)
  | .compare l rest, h => by
    rw [show validateE (.compare l rest) = (do
        validateE l
        validateChain rest) from rfl]
    cases hvl : validateE l with
    | error e => exact ⟨e, rfl⟩
    | ok u =>
      cases u
      have hab : hasForbidden l = true ∨ hasForbiddenChain rest = true := by
        simpa [hasForbidden, Bool.or_eq_true] using h
      cases hab with
      | inl hl =>
        obtain ⟨e, he⟩ := hasForbidden_validateE l hl
        rw [he] at hvl
        cases hvl
      | inr hc =>
        obtain ⟨e, he⟩ := hasForbiddenChain_validate rest hc
        rw [he]
        exact ⟨e, rfl⟩
  | .call f args, h => by
    rw [show validateE (.call f args) = (match funcNameOf f with
        | some id =>
          if allowedFuncName id then validateList args
          else .error (denyMsg ("function " ++ id ++ " not allowed"))
        | Option.none => .error (denyMsg "only simple function calls allowed")) from rfl]
    cases hfn : funcNameOf f with
    | some id =>
      by_cases ha : allowedFuncName id = true
      · simp only [if_pos ha]
        have hl : hasForbiddenList args = true := by
          have := h
          simp [hasForbidden, hfn, Bool.or_eq_true] at this
          rcases this with hbad | hl
          · exact absurd ha (by simp [hbad])
          · exact hl
        exact hasForbiddenList_validate args hl
      · simp only [if_neg ha]
        exact ⟨denyMsg ("function " ++ id ++ " not allowed"), rfl⟩
    | none =>
      exact ⟨denyMsg "only simple function calls allowed", rfl⟩
  | .listD xs, h => by
    rw [show validateE (.listD xs) = validateList xs from rfl]
    exact hasForbiddenList_validate xs (by simpa [hasForbidden] using h)
  | .tupleD xs, h => by
    rw [show validateE (.tupleD xs) = validateList xs from rfl]
    exact hasForbiddenList_validate xs (by simpa [hasForbidden] using h)
  | .attribute v a, _ => ⟨denyMsg "disallowed node: Attribute", rfl⟩
  | .subscript v i, _ => ⟨denyMsg "disallowed node: Subscript", rfl⟩
  | .ifExp b t e, _ => ⟨denyMsg "disallowed node: IfExp", rfl⟩
  | .lam b, _ => ⟨denyMsg "disallowed node: Lambda", rfl⟩

theorem hasForbiddenChain_validate : ∀ (rest : List (CmpO × PyExpr)),
    hasForbiddenChain rest = true → ∃ exc, validateChain rest = .error exc
  | [], h => by simp [hasForbiddenChain] at h
  | (op, e) :: rest, h => by
    rw [show validateChain ((op, e) :: rest) = (do
        validateE e
        validateChain rest) from rfl]
    cases hve : validateE e with
    | error e2 => exact ⟨e2, rfl⟩
    | ok u =>
      cases u
      have hab : hasForbidden e = true ∨ hasForbiddenChain rest = true := by
        simpa [hasForbiddenChain, Bool.or_eq_true] using h
      cases hab with
      | inl he =>
        obtain ⟨e2, he2⟩ := hasForbidden_validateE e he
        rw [he2] at hve
        cases hve
      | inr hc =>
        obtain ⟨e2, he2⟩ := hasForbiddenChain_validate rest hc
        rw [he2]
        exact ⟨e2, rfl⟩

theorem hasForbiddenList_validate : ∀ (xs : List PyExpr),
    hasForbiddenList xs = true → ∃ exc, validateList xs = .error exc
  | [], h => by simp [hasForbiddenList] at h
  | e :: rest, h => by
    rw [show validateList (e :: rest) = (do
        validateE e
        validateList rest) from rfl]
    cases hve : validateE e with
    | error e2 => exact ⟨e2, rfl⟩
    | ok u =>
      cases u
      have hab : hasForbidden e = true ∨ hasForbiddenList rest = true := by
        simpa [hasForbiddenList, Bool.or_eq_true] using h
      cases hab with
      | inl he =>
        obtain ⟨e2, he2⟩ := hasForbidden_validateE e he
        rw [he2] at hve
        cases hve
      | inr hc =>
        obtain ⟨e2, he2⟩ := hasForbiddenList_validate rest hc
        rw [he2]
        exact ⟨e2, rfl⟩

end

/-- C5: an expression containing attribute access, a subscript, a name
beginning with `__`, a call to anything but a whitelisted bare function
name, or a construct outside the permitted grammar, is rejected by the
validator with an `Unsafe expression` `ValueError` — and `safe_eval`
returns that very rejection for every variable binding, i.e. before any
evaluation takes place. -/
theorem forbidden_rejected_before_eval (ast : PyExpr)
    (h : hasForbidden ast = true) :
    ∃ msg, validateE ast = .error (denyMsg msg) ∧
      ∀ (s : String) (vars : Bindings),
        pyParse s = .ok ast → safe_eval s vars = .error (denyMsg msg) := by
  obtain ⟨exc, herr⟩ := hasForbidden_validateE ast h
  obtain ⟨msg, hmsg⟩ := validateE_err_is_deny ast exc herr
  subst hmsg
  exact ⟨msg, herr, fun s vars hp => safe_eval_of_validate_err s vars ast _ hp herr⟩

/-- Witness for `forbidden_rejected_before_eval` on `a.b`, `a[0]`,
`__import__`, an unlisted call and a lambda (the parses are checked inside
the witness by `rfl`). -/
theorem forbidden_rejected_before_eval_witness :
    (∃ msg, validateE (.attribute (.name "a") "b") = .error (denyMsg msg) ∧
      ∀ s vars, pyParse s = .ok (.attribute (.name "a") "b") →
        safe_eval s vars = .error (denyMsg msg)) ∧
    (∃ msg, validateE (.subscript (.name "a") (.const (.cint 0))) = .error (denyMsg msg) ∧
      ∀ s vars, pyParse s = .ok (.subscript (.name "a") (.const (.cint 0))) →
        safe_eval s vars = .error (denyMsg msg)) ∧
    (∃ msg, validateE (.name "__import__") = .error (denyMsg msg) ∧
      ∀ s vars, pyParse s = .ok (.name "__import__") →
        safe_eval s vars = .error (denyMsg msg)) ∧
    (∃ msg, validateE (.call (.name "open") [.const (.cstr "x")]) = .error (denyMsg msg) ∧
      ∀ s vars, pyParse s = .ok (.call (.name "open") [.const (.cstr "x")]) →
        safe_eval s vars = .error (denyMsg msg)) ∧
    (∃ msg, validateE (.lam (.name "x")) = .error (denyMsg msg) ∧
      ∀ s vars, pyParse s = .ok (.lam (.name "x")) →
        safe_eval s vars = .error (denyMsg msg)) :=
  ⟨forbidden_rejected_before_eval _ (by decide),
    forbidden_rejected_before_eval _ (by decide),
    forbidden_rejected_before_eval _ (by decide),
    forbidden_rejected_before_eval _ (by decide),
    forbidden_rejected_before_eval _ (by decide)⟩

/-! ## Risk configuration (`ctrl.config.schema`) and engine (`ctrl.risk.engine`) -/

/-- Model of `ctrl.config.schema.RiskMode`. -/
structure RiskMode where
  score : Int
  deriving Repr, DecidableEq

/-- Model of `ctrl.config.schema.RiskRuleWhen`.  The `args` sub-map is raw YAML
(`Dict[str, Dict[str, Any]]`): per argument name, a predicate dict. -/
structure RiskRuleWhen where
  server : String := "*"
  tool : String := "*"
  env : String := "*"
  args : Option (List (String × List (String × Value))) := Option.none

/-- Model of `ctrl.config.schema.RiskRule`.  Pydantic restricts `escalate` to
`"one_level"` or `None`. -/
structure RiskRule where
  name : String := "rule"
  when : RiskRuleWhen
  reason : String := ""
  set_mode : Option String := Option.none
  escalate : Option String := Option.none
  score_expr : Option String := Option.none

/-- Model of `ctrl.config.schema.RiskConfig` (the payload under the `risk:` key).
Python dicts preserve insertion order, embedded as association lists. -/
structure RiskConfig where
  mode : String := "modes"
  modes : List (String × RiskMode)
  vars : List (String × String) := []
  rules : List RiskRule := []
  set_mode_by_score : List (String × String) := []

/-- Model of `ctrl.risk.engine.RiskResult`. -/
structure RiskResult where
  mode : String
  score : Int
  reasons : List String
  matched_rules : List String

/-- Model of `ctrl.risk.engine.RiskEngine`: the constructor refuses configs unless
`mode == "modes"`, `modes` is non-empty and contains the `safe`, `review`
and `danger` rungs; a constructed engine carries those facts. -/
structure RiskEngine where
  cfg : RiskConfig
  mode_ok : cfg.mode = "modes"
  modes_nonempty : cfg.modes ≠ []
  has_safe : (cfg.modes.lookup "safe").isSome
  has_review : (cfg.modes.lookup "review").isSome
  has_danger : (cfg.modes.lookup "danger").isSome

/-- The intent record consumed by `RiskEngine.score`. -/
structure Intent where
  server : String
  tool : String
  env : String
  args : Bindings := []
  actor : Option String := Option.none

/-- Model of `ctrl.risk.engine._mode_rank` (unknown modes rank 0). -/
def _mode_rank (mode : String) : Nat :=
  if mode = "safe" then 0
  else if mode = "review" then 1
  else if mode = "danger" then 2
  else 0

/-- Model of `ctrl.risk.engine._escalate_one`: one step up the
`safe → review → danger` ladder, saturating; unknown modes unchanged. -/
def _escalate_one (mode : String) : String :=
  if mode = "safe" then "review"
  else if mode = "review" then "danger"
  else if mode = "danger" then "danger"
  else mode

/-- Python `max(a, b, key=_mode_rank)`: the second argument wins only with
a strictly larger rank. -/
def maxByRank (a b : String) : String :=
  if _mode_rank a < _mode_rank b then b else a

/-- Python `float(s)` on strings: optional surrounding spaces, optional
sign, decimal digits with optional fraction and exponent.  (`inf`/`nan`
and underscores are not modeled; the configs never use them.) -/
def pyFloatOfString (s : String) : Except PyExc ℚ := do
  let cs := (((s.data.dropWhile (· = ' ')).reverse.dropWhile (· = ' ')).reverse)
  let sgn : ℚ × List Char :=
    match cs with
    | c :: rest =>
      if c = '-' then (-1, rest) else if c = '+' then (1, rest) else (1, cs)
    | [] => (1, cs)
  let body := sgn.2
  let scan : Except PyExc (Tok × List Char) :=
    match body with
    | c :: _ =>
      if c.isDigit then
        let (ip, r) := scanDigits body 0
        scanNumTail ip r
      else if c = '.' && (match body.drop 1 with | d :: _ => d.isDigit | [] => false) then
        scanNumTail 0 body
      else .error (.valueError "could not convert string to float")
    | [] => .error (.valueError "could not convert string to float")
  let (t, rest) ← scan
  match t, rest with
  | .tint n, [] => .ok (sgn.1 * (n : ℚ))
  | .tfloat q, [] => .ok (sgn.1 * q)
  | _, _ => .error (.valueError "could not convert string to float")

/-- Python `float(v)`. -/
def pyFloat (v : Value) : Except PyExc ℚ :=
  match v with
  | .str s => pyFloatOfString s
  | _ =>
    match asNum v with
    | some (q, _) => .ok q
    | Option.none => .error (.typeError "float argument must be a string or a real number")

/-- Dict insert-or-replace (`d[k] = v`), preserving insertion order. -/
def dictSet (m : Bindings) (k : String) (v : Value) : Bindings :=
  match m with
  | [] => [(k, v)]
  | (k2, v2) :: rest => if k2 == k then (k2, v) :: rest else (k2, v2) :: dictSet rest k v

/-- Model of `{**a, **b}`. -/
def dictMerge (a b : Bindings) : Bindings :=
  b.foldl (fun m kv => dictSet m kv.1 kv.2) a

/-- One arg predicate of `ctrl.risk.engine._args_match`: every present key
must hold; CPython evaluation order and short-circuiting are preserved (in
particular a non-numeric actual fails a numeric predicate before
`float(pred[...])` can raise). -/
def checkPred (v : Value) (pred : List (String × Value)) : Except PyExc Bool := do
  if let some pv := pred.lookup "eq" then
    if !pyEq v pv then return false
  if let some pv := pred.lookup "ne" then
    if pyEq v pv then return false
  if let some pv := pred.lookup "gte" then
    match asNum v with
    | Option.none => return false
    | some (x, _) =>
      let p ← pyFloat pv
      if x < p then return false
  if let some pv := pred.lookup "gt" then
    match asNum v with
    | Option.none => return false
    | some (x, _) =>
      let p ← pyFloat pv
      if x ≤ p then return false
  if let some pv := pred.lookup "lte" then
    match asNum v with
    | Option.none => return false
    | some (x, _) =>
      let p ← pyFloat pv
      if p < x then return false
  if let some pv := pred.lookup "lt" then
    match asNum v with
    | Option.none => return false
    | some (x, _) =>
      let p ← pyFloat pv
      if p ≤ x then return false
  if let some pv := pred.lookup "contains" then
    match v with
    | .str s =>
      let m ← pyIn pv (.str s)
      if !m then return false
    | _ => return false
  if let some pv := pred.lookup "in" then
    let m ← pyIn v pv
    if !m then return false
  return true

/-- Model of `ctrl.risk.engine._args_match`: all per-arg predicates must hold
(missing actuals are `None`). -/
def _args_match (args : Bindings) : List (String × List (String × Value)) → Except PyExc Bool
  | [] => .ok true
  | (k, pred) :: rest => do
    let ok ← checkPred ((args.lookup k).getD .none) pred
    if ok then _args_match args rest else return false

/-- Model of `ctrl.risk.engine._when_matches`. -/
def _when_matches (when : RiskRuleWhen) (server tool env : String)
    (args : Bindings) : Except PyExc Bool := do
  if !fnmatch server when.server then return false
  if !fnmatch tool when.tool then return false
  if !fnmatch env when.env then return false
  match when.args with
  | Option.none => return true
  | some preds =>
    if preds.isEmpty then return true
    else _args_match args preds

/-- Scalar check of the hoisting loop: `isinstance(v, (int, float, str,
bool))`. -/
def isScalar : Value → Bool
  | .int _ => true
  | .float _ => true
  | .str _ => true
  | .bool _ => true
  | _ => false

/-- Hoist scalar args to top-level bindings (`vars_ctx[k] = v`). -/
def hoistScalars (ctx : Bindings) : Bindings → Bindings
  | [] => ctx
  | (k, v) :: rest => hoistScalars (if isScalar v then dictSet ctx k v else ctx) rest

/-- Evaluate the `vars:` expressions in declaration order; a failing
expression binds its name to `0` and scoring continues. -/
def computeVars (vars_ctx : Bindings) : List (String × String) → Bindings → Bindings
  | [], computed => computed
  | (name, expr) :: rest, computed =>
    let v :=
      match safe_eval expr (dictMerge vars_ctx computed) with
      | .ok v => v
      | .error _ => .int 0
    computeVars vars_ctx rest (dictSet computed name v)

/-- Model of `modes.get(mode, modes["safe"])` of a constructed engine. -/
def modesGetSafe (e : RiskEngine) (m : String) : RiskMode :=
  (e.cfg.modes.lookup m).getD ((e.cfg.modes.lookup "safe").get e.has_safe)

/-- Model of `int(max(0, min(100, round(float(v)))))` on the numeric value of a
successful `score_expr`. -/
def clampScore (x : ℚ) : Int :=
  max 0 (min 100 (rndHalfEven x))

/-- The expression bindings `{**vars_ctx, **computed, "score": score,
"mode": mode}` used by `score_expr` and `set_mode_by_score`. -/
def scoreExprCtx (vars_ctx computed : Bindings) (score : Int) (mode : String) : Bindings :=
  dictSet (dictSet (dictMerge vars_ctx computed) "score" (.int score)) "mode" (.str mode)

/-- The `score_expr` handling of one matched rule: on numeric success the
clamped value replaces the score; a successful non-numeric value is ignored
(the `isinstance(v, (int, float))` guard); on failure the mode is bumped to
at least `review` and a diagnostic reason is appended.  (The source message
quotes the rule name; apostrophes are dropped here.) -/
def scoreExprStep (vars_ctx computed : Bindings) (rule : RiskRule)
    (score : Int) (mode : String) (reasons : List String) :
    Int × String × List String :=
  match rule.score_expr with
  | Option.none => (score, mode, reasons)
  | some se =>
    if se = "" then (score, mode, reasons)
    else
      match safe_eval se (scoreExprCtx vars_ctx computed score mode) with
      | .ok v =>
        match asNum v with
        | some (x, _) => (clampScore x, mode, reasons)
        | Option.none => (score, mode, reasons)
      | .error _ =>
        (score, maxByRank mode "review",
          reasons ++ ["Expr failed in rule " ++ rule.name ++ " -> escalated"])

/-- Body of the rules loop for one matched rule: append the rule name and
reason, run the `score_expr` step, apply `set_mode` (skipped when falsy)
and `escalate`, then realign the score with the final mode's baseline. -/
def applyRuleBody (e : RiskEngine) (vars_ctx computed : Bindings)
    (st : RiskResult) (rule : RiskRule) : RiskResult :=
  let matched_rules := st.matched_rules ++ [rule.name]
  let reasons := if rule.reason ≠ "" then st.reasons ++ [rule.reason] else st.reasons
  let step := scoreExprStep vars_ctx computed rule st.score st.mode reasons
  let mode2 :=
    match rule.set_mode with
    | some sm => if sm = "" then step.2.1 else sm
    | Option.none => step.2.1
  let mode3 := if rule.escalate == some "one_level" then _escalate_one mode2 else mode2
  ⟨mode3, max step.1 (modesGetSafe e mode3).score, step.2.2, matched_rules⟩

/-- One iteration of the rules loop: an unmatched rule leaves the state
unchanged (`continue`); only the `when` evaluation can raise. -/
def applyRule (e : RiskEngine) (intent : Intent) (vars_ctx computed : Bindings)
    (st : RiskResult) (rule : RiskRule) : Except PyExc RiskResult :=
  (_when_matches rule.when intent.server intent.tool intent.env intent.args).map
    fun m => if m then applyRuleBody e vars_ctx computed st rule else st

/-- The rules loop. -/
def rulesLoop (e : RiskEngine) (intent : Intent) (vars_ctx computed : Bindings) :
    List RiskRule → RiskResult → Except PyExc RiskResult
  | [], st => .ok st
  | rule :: rest, st => do
    let st2 ← applyRule e intent vars_ctx computed st rule
    rulesLoop e intent vars_ctx computed rest st2

/-- The `set_mode_by_score` loop: first truthy expression wins (break); a
failing expression escalates to at least `review`, appends a reason and
continues with the updated mode in scope. -/
def smbsLoop (vars_ctx computed : Bindings) (score : Int) :
    List (String × String) → String → List String → String × List String
  | [], mode, reasons => (mode, reasons)
  | (mode_name, cond_expr) :: rest, mode, reasons =>
    match safe_eval cond_expr (scoreExprCtx vars_ctx computed score mode) with
    | .ok v =>
      if pyTruthy v then (mode_name, reasons)
      else smbsLoop vars_ctx computed score rest mode reasons
    | .error _ =>
      smbsLoop vars_ctx computed score rest (maxByRank mode "review")
        (reasons ++ ["set_mode_by_score expression failed -> review"])

/-- The base bindings of `RiskEngine.score` with scalar args hoisted on
top (`vars_ctx`). -/
def riskVarsCtx (intent : Intent) : Bindings :=
  hoistScalars
    [("server", .str intent.server), ("tool", .str intent.tool),
     ("env", .str intent.env), ("args", .dict intent.args)]
    intent.args

/-- The user-defined derived variables (`computed`). -/
def riskComputed (e : RiskEngine) (intent : Intent) : Bindings :=
  computeVars (riskVarsCtx intent) e.cfg.vars []

/-- The tail of `RiskEngine.score` after the rules loop: the
`set_mode_by_score` mapping (skipped when empty, with realignment to the
chosen mode's baseline otherwise) followed by the final clamp to
`[0, 100]`. -/
def finalizeScore (e : RiskEngine) (vars_ctx computed : Bindings)
    (st : RiskResult) : RiskResult :=
  let after :=
    if e.cfg.set_mode_by_score.isEmpty then (st.mode, st.score, st.reasons)
    else
      let mr := smbsLoop vars_ctx computed st.score e.cfg.set_mode_by_score st.mode st.reasons
      (mr.1, max st.score (modesGetSafe e mr.1).score, mr.2)
  ⟨after.1, max 0 (min 100 after.2.1), after.2.2, st.matched_rules⟩

/-- Model of `ctrl.risk.engine.RiskEngine.score`.  The only statements that can
raise are the `float(...)` coercions inside `_args_match`; everything else
is guarded by `try/except`. -/
def RiskEngine.score (e : RiskEngine) (intent : Intent) : Except PyExc RiskResult :=
  (rulesLoop e intent (riskVarsCtx intent) (riskComputed e intent) e.cfg.rules
      ⟨"safe", ((e.cfg.modes.lookup "safe").get e.has_safe).score, [], []⟩).map
    (finalizeScore e (riskVarsCtx intent) (riskComputed e intent))

/-! ## C4: risk score bounds and mode/score consistency -/

theorem lookup_mem {α : Type} {l : List (String × α)} {k : String} {v : α}
    (h : l.lookup k = some v) : (k, v) ∈ l := by
  induction l with
  | nil => cases h
  | cons kv rest ih =>
    obtain ⟨a, b⟩ := kv
    cases he : (k == a) with
    | true =>
      have ha : k = a := eq_of_beq he
      subst ha
      simp only [List.lookup, he] at h
      cases h
      exact List.mem_cons_self _ _
    | false =>
      simp only [List.lookup, he] at h
      exact List.mem_cons_of_mem _ (ih h)

/-- The mode/score alignment invariant the realignment steps establish. -/
def aligned (e : RiskEngine) (st : RiskResult) : Prop :=
  (modesGetSafe e st.mode).score ≤ st.score

theorem applyRuleBody_aligned (e : RiskEngine) (vars_ctx computed : Bindings)
    (st : RiskResult) (rule : RiskRule) :
    aligned e (applyRuleBody e vars_ctx computed st rule) := by
  unfold aligned applyRuleBody
  exact le_max_right _ _

theorem applyRule_aligned (e : RiskEngine) (intent : Intent)
    (vars_ctx computed : Bindings) (st st2 : RiskResult) (rule : RiskRule)
    (hst : aligned e st)
    (h : applyRule e intent vars_ctx computed st rule = .ok st2) :
    aligned e st2 := by
  unfold applyRule at h
  cases hw : _when_matches rule.when intent.server intent.tool intent.env intent.args with
  | error exc => rw [hw] at h; cases h
  | ok m =>
    rw [hw] at h
    cases m with
    | true =>
      simp only [Except.map, if_pos] at h
      cases h
      exact applyRuleBody_aligned e vars_ctx computed st rule
    | false =>
      simp only [Except.map, if_neg] at h
      cases h
      exact hst

theorem rulesLoop_aligned (e : RiskEngine) (intent : Intent)
    (vars_ctx computed : Bindings) :
    ∀ (rules : List RiskRule) (st st2 : RiskResult), aligned e st →
      rulesLoop e intent vars_ctx computed rules st = .ok st2 → aligned e st2
  | [], st, st2, hst, h => by
    cases h
    exact hst
  | rule :: rest, st, st2, hst, h => by
    rw [show rulesLoop e intent vars_ctx computed (rule :: rest) st = (do
        let st3 ← applyRule e intent vars_ctx computed st rule
        rulesLoop e intent vars_ctx computed rest st3) from rfl] at h
    cases ha : applyRule e intent vars_ctx computed st rule with
    | error exc => rw [ha] at h; cases h
    | ok st3 =>
      rw [ha] at h
      exact rulesLoop_aligned e intent vars_ctx computed rest st3 st2
        (applyRule_aligned e intent vars_ctx computed st st3 rule hst ha) h

/-- C4 (amended): for every intent and constructed engine (modes contain
`safe`, `review`, `danger`) **whose baselines are all at most 100**, a
successful scoring satisfies `0 ≤ score ≤ 100`, and whenever the returned
mode is a configured one, `score ≥ modes[mode].score`. -/
theorem except_map_ok {α β ε : Type} (f : α → β) (x : Except ε α) (y : β)
    (h : x.map f = .ok y) : ∃ a, x = .ok a ∧ y = f a := by
  cases x with
  | error e => simp [Except.map] at h
  | ok a =>
    simp only [Except.map, Except.ok.injEq] at h
    exact ⟨a, rfl, h.symm⟩

/-- Model of `finalizeScore` keeps the invariant and produces a clamped score. -/
theorem finalizeScore_bounds (e : RiskEngine) (vars_ctx computed : Bindings)
    (st : RiskResult) (hst : aligned e st)
    (hbound : ∀ kv ∈ e.cfg.modes, (kv.2 : RiskMode).score ≤ 100) :
    0 ≤ (finalizeScore e vars_ctx computed st).score ∧
      (finalizeScore e vars_ctx computed st).score ≤ 100 ∧
      ∀ rm, e.cfg.modes.lookup (finalizeScore e vars_ctx computed st).mode = some rm →
        rm.score ≤ (finalizeScore e vars_ctx computed st).score := by
  have key : ∀ (mode4 : String) (score4 : Int),
      (modesGetSafe e mode4).score ≤ score4 →
      0 ≤ max 0 (min 100 score4) ∧ max 0 (min 100 score4) ≤ 100 ∧
        ∀ rm, e.cfg.modes.lookup mode4 = some rm →
          rm.score ≤ max 0 (min 100 score4) := by
    intro mode4 score4 hal
    refine ⟨le_max_left _ _, max_le (by norm_num) (min_le_left _ _), ?_⟩
    intro rm hrm
    have h100 : rm.score ≤ 100 := hbound _ (lookup_mem hrm)
    have heq : modesGetSafe e mode4 = rm := by
      unfold modesGetSafe
      rw [hrm]
      rfl
    have hle : rm.score ≤ score4 := heq ▸ hal
    exact le_trans (le_min h100 hle) (le_max_right _ _)
  unfold finalizeScore
  by_cases hsm : e.cfg.set_mode_by_score.isEmpty
  · simp only [if_pos hsm]
    exact key st.mode st.score hst
  · simp only [if_neg hsm]
    exact key _ _ (le_max_right _ _)

/-- C4 (amended): for every intent and constructed engine (modes contain
`safe`, `review`, `danger`) **whose baselines are all at most 100**, a
successful scoring satisfies `0 ≤ score ≤ 100`, and whenever the returned
mode is a configured one, `score ≥ modes[mode].score`.  (The cap hypothesis
is necessary: see `risk_score_bounds_cex` — a baseline above 100 is cut off
by the final clamp.) -/
theorem risk_score_bounds (e : RiskEngine) (intent : Intent) (r : RiskResult)
    (hbound : ∀ kv ∈ e.cfg.modes, (kv.2 : RiskMode).score ≤ 100)
    (h : e.score intent = .ok r) :
    0 ≤ r.score ∧ r.score ≤ 100 ∧
      ∀ rm, e.cfg.modes.lookup r.mode = some rm → rm.score ≤ r.score := by
  unfold RiskEngine.score at h
  obtain ⟨st, hl, hr⟩ := except_map_ok _ _ _ h
  have hst : aligned e st := by
    apply rulesLoop_aligned e intent _ _ e.cfg.rules _ st _ hl
    unfold aligned modesGetSafe
    dsimp only
    obtain ⟨v, hv⟩ := Option.isSome_iff_exists.mp e.has_safe
    simp [hv]
  subst hr
  exact finalizeScore_bounds e _ _ st hst hbound

/-- Witness for `risk_score_bounds`: the three-rung engine above, scoring a
matching intent. -/
def witnessRiskCfg : RiskConfig :=
  { modes := [("safe", ⟨0⟩), ("review", ⟨40⟩), ("danger", ⟨80⟩)],
    rules := [{ name := "bump", when := {}, escalate := some "one_level" }],
    set_mode_by_score := [("danger", "score >= 80")] }

/-- The constructed engine for the witnesses. -/
def witnessRiskEngine : RiskEngine :=
  ⟨witnessRiskCfg, rfl, by decide, by decide, by decide, by decide⟩

theorem risk_score_bounds_witness :
    0 ≤ (40 : Int) ∧ (40 : Int) ≤ 100 ∧
      ∀ rm, witnessRiskEngine.cfg.modes.lookup "review" = some rm →
        rm.score ≤ (40 : Int) := by
  have h := risk_score_bounds witnessRiskEngine
    { server := "s", tool := "t", env := "dev" }
    ⟨"review", 40, [], ["bump"]⟩
    (by decide)
    rfl
  exact h

/-- A config whose baselines exceed 100: constructible (the schema does not
bound mode scores) and accepted by `RiskEngine.__init__`. -/
def cexRiskCfg : RiskConfig :=
  { modes := [("safe", ⟨120⟩), ("review", ⟨130⟩), ("danger", ⟨140⟩)] }

/-- The constructed over-100 engine. -/
def cexRiskEngine : RiskEngine :=
  ⟨cexRiskCfg, rfl, by decide, by decide, by decide, by decide⟩

/-- C4 (counterexample to the claim as stated): with `safe` baseline 120
(modes containing safe/review/danger as the claim requires), scoring any
intent returns `mode = "safe"` with `score = 100 < 120 =
modes["safe"].score` — the final clamp cuts the baseline off. -/
theorem risk_score_bounds_cex :
    cexRiskEngine.score { server := "s", tool := "t", env := "dev" } =
      .ok ⟨"safe", 100, [], []⟩ ∧
    cexRiskEngine.cfg.modes.lookup "safe" = some ⟨120⟩ ∧
    ¬((120 : Int) ≤ 100) :=
  ⟨rfl, rfl, by decide⟩

/-! ## C6: the `score_expr` step -/

theorem maxByRank_ge_left (a b : String) : _mode_rank a ≤ _mode_rank (maxByRank a b) := by
  unfold maxByRank
  split
  · omega
  · exact le_refl _

theorem maxByRank_ge_right (a b : String) : _mode_rank b ≤ _mode_rank (maxByRank a b) := by
  unfold maxByRank
  split
  · exact le_refl _
  · omega

/-- C6 (amended): for a matched rule with a present, non-empty
`score_expr`: a successful evaluation yielding a **numeric** value assigns
the value clamped to `[0, 100]`; a successful non-numeric value leaves the
score unchanged; a failing evaluation keeps the score, escalates the mode
toward `review` (never below its current rank) and appends a diagnostic
reason.  (The claim as stated omits the numeric guard; see
`score_expr_step_cex`.) -/
theorem score_expr_step_behavior (vars_ctx computed : Bindings) (rule : RiskRule)
    (score : Int) (mode : String) (reasons : List String) (se : String)
    (hse : rule.score_expr = some se) (hne : se ≠ "") :
    (∀ v x f, safe_eval se (scoreExprCtx vars_ctx computed score mode) = .ok v →
      asNum v = some (x, f) →
      scoreExprStep vars_ctx computed rule score mode reasons =
        (clampScore x, mode, reasons) ∧ 0 ≤ clampScore x ∧ clampScore x ≤ 100) ∧
    (∀ v, safe_eval se (scoreExprCtx vars_ctx computed score mode) = .ok v →
      asNum v = Option.none →
      scoreExprStep vars_ctx computed rule score mode reasons = (score, mode, reasons)) ∧
    (∀ exc, safe_eval se (scoreExprCtx vars_ctx computed score mode) = .error exc →
      scoreExprStep vars_ctx computed rule score mode reasons =
        (score, maxByRank mode "review",
          reasons ++ ["Expr failed in rule " ++ rule.name ++ " -> escalated"]) ∧
      _mode_rank mode ≤ _mode_rank (maxByRank mode "review") ∧
      _mode_rank "review" ≤ _mode_rank (maxByRank mode "review")) := by
  refine ⟨?_, ?_, ?_⟩
  · intro v x f hok hnum
    unfold scoreExprStep
    rw [hse]
    simp only [if_neg hne, hok, hnum]
    refine ⟨trivial, le_max_left _ _, max_le (by norm_num) (min_le_left _ _)⟩
  · intro v hok hnum
    unfold scoreExprStep
    rw [hse]
    simp only [if_neg hne, hok, hnum]
  · intro exc herr
    unfold scoreExprStep
    rw [hse]
    simp only [if_neg hne, herr]
    exact ⟨trivial, maxByRank_ge_left _ _, maxByRank_ge_right _ _⟩

/-- A matched rule whose `score_expr` evaluates to a string: `server` is
bound to a string in `vars_ctx`. -/
def cexScoreRule : RiskRule :=
  { when := {}, score_expr := some "server" }

/-- C6 (counterexample to the claim as stated): the `score_expr` `server`
evaluates **successfully** to the non-numeric value `"payments"`, yet the
score is left unchanged — nothing is clamped or assigned (`asNum` of the
result is `none`, so no clamped integer exists). -/
theorem score_expr_step_cex :
    safe_eval "server" (scoreExprCtx [("server", .str "payments")] [] 5 "safe") =
      .ok (.str "payments") ∧
    asNum (.str "payments") = Option.none ∧
    scoreExprStep [("server", .str "payments")] [] cexScoreRule 5 "safe" [] =
      (5, "safe", []) :=
  ⟨rfl, rfl, rfl⟩

/-- Witness for `score_expr_step_behavior`: a numeric success, a
non-numeric success, and a failing expression, on concrete inputs. -/
theorem score_expr_step_behavior_witness :
    (scoreExprStep [] [] { when := {}, score_expr := some "score + 200" } 5 "safe" [] =
      (100, "safe", []) ∧ 0 ≤ (100 : Int) ∧ (100 : Int) ≤ 100) ∧
    scoreExprStep [("server", .str "x")] [] cexScoreRule 5 "safe" [] = (5, "safe", []) ∧
    (scoreExprStep [] [] { name := "r1", when := {}, score_expr := some "1/0" } 5 "safe" [] =
      (5, "review", ["Expr failed in rule r1 -> escalated"]) ∧
      _mode_rank "safe" ≤ _mode_rank (maxByRank "safe" "review") ∧
      _mode_rank "review" ≤ _mode_rank (maxByRank "safe" "review")) := by
  refine ⟨?_, ?_, ?_⟩
  · have h := (score_expr_step_behavior [] [] { when := {}, score_expr := some "score + 200" }
      5 "safe" [] "score + 200" rfl (by decide)).1 (.int 205) 205 false
      (by with_unfolding_all rfl) (by with_unfolding_all rfl)
    have hc : clampScore 205 = 100 := by with_unfolding_all rfl
    rw [hc] at h
    exact ⟨h.1, h.2⟩
  · exact (score_expr_step_behavior [("server", .str "x")] [] cexScoreRule
      5 "safe" [] "server" rfl (by decide)).2.1 (.str "x") rfl rfl
  · have h := (score_expr_step_behavior [] [] { name := "r1", when := {}, score_expr := some "1/0" }
      5 "safe" [] "1/0" rfl (by decide)).2.2 (.zeroDivisionError "division by zero") rfl
    exact h

/-! ## Canonical JSON (`ctrl.langchain.client._stable_json`)

`json.dumps(obj, separators=(",", ":"), sort_keys=True, ensure_ascii=False)`
over the JSON value domain.  `sort_keys` sorts `dict.items()` — pairs,
compared lexicographically (keys first; values can only be compared on key
ties, which unique keys rule out).  Floats are modeled as exact rationals
rendered by an injective placeholder (`repr` of an IEEE double is a
function of the value, which is all C7 needs). -/

/-- JSON values (Python objects `json.dumps` accepts, with string keys). -/
inductive JVal where
  | jnull
  | jbool (b : Bool)
  | jint (n : Int)
  | jfloat (q : ℚ)
  | jstr (s : String)
  | jarr (xs : List JVal)
  | jobj (kvs : List (String × JVal))

/-- JSON string quoting as `json.dumps` does with `ensure_ascii=False`:
escape backslash, double quote and control characters. -/
def jsonEscapeChar (c : Char) : List Char :=
  if c = '\\' then ['\\', '\\']
  else if c.toNat = 34 then ['\\', '"']
  else if c = '\n' then ['\\', 'n']
  else if c = '\t' then ['\\', 't']
  else if c.toNat = 13 then ['\\', 'r']
  else if c.toNat = 8 then ['\\', 'b']
  else if c.toNat = 12 then ['\\', 'f']
  else if c.toNat < 32 then
    ['\\', 'u', '0', '0',
     (if c.toNat / 16 < 10 then Char.ofNat (48 + c.toNat / 16) else Char.ofNat (87 + c.toNat / 16)),
     (if c.toNat % 16 < 10 then Char.ofNat (48 + c.toNat % 16) else Char.ofNat (87 + c.toNat % 16))]
  else [c]

/-- A quoted JSON string literal. -/
def quoteJson (s : String) : String :=
  ⟨'"' :: (s.data.flatMap jsonEscapeChar) ++ ['"']⟩

/-- Placeholder rendering of a float (CPython uses `repr`, the shortest
round-tripping decimal; any injective function of the value serves C7). -/
def serFloat (q : ℚ) : String :=
  toString q.num ++ "/" ++ toString q.den

/-- Lexicographic order on serialized entries, as Python compares the
`(key, value)` tuples of `sorted(dict.items())`. -/
def pairLeB (p q : String × String) : Bool :=
  Decidable.decide (p.1 < q.1) ||
    (Decidable.decide (p.1 = q.1) && Decidable.decide (p.2 ≤ q.2))

/-- Model of `sorted(...)` of serialized entries (mergesort, stable, like CPython). -/
def sortPairs (ps : List (String × String)) : List (String × String) :=
  ps.mergeSort pairLeB

/-- Join serialized object entries with the `:` and `,` separators. -/
def joinObj (ps : List (String × String)) : String :=
  String.intercalate "," (ps.map fun p => quoteJson p.1 ++ ":" ++ p.2)

mutual

/-- The canonical serializer.  For objects, each value is serialized first
(entry order preserved), then the entries are sorted; since the per-entry
output is position-independent this coincides with sorting before
serializing, and keeps the recursion structural. -/
def dumps : JVal → String
  | .jnull => "null"
  | .jbool true => "true"
  | .jbool false => "false"
  | .jint n => toString n
  | .jfloat q => serFloat q
  | .jstr s => quoteJson s
  | .jarr xs => "[" ++ String.intercalate "," (dumpsStrList xs) ++ "]"
  | .jobj kvs => "\x7b" ++ joinObj (sortPairs (dumpsEntries kvs)) ++ "\x7d"

def dumpsStrList : List JVal → List String
  | [] => []
  | x :: rest => dumps x :: dumpsStrList rest

def dumpsEntries : List (String × JVal) → List (String × String)
  | [] => []
  | (k, v) :: rest => (k, dumps v) :: dumpsEntries rest

end

/-- Semantic equality of JSON values: scalars by value, arrays pointwise in
order, objects as key→value mappings irrespective of entry order (with the
unique-key property every Python dict has). -/
inductive JEquiv : JVal → JVal → Prop where
  | null : JEquiv .jnull .jnull
  | bool (b : Bool) : JEquiv (.jbool b) (.jbool b)
  | int (n : Int) : JEquiv (.jint n) (.jint n)
  | float (q : ℚ) : JEquiv (.jfloat q) (.jfloat q)
  | str (s : String) : JEquiv (.jstr s) (.jstr s)
  | arr (xs ys : List JVal) (hlen : xs.length = ys.length)
      (h : ∀ i (hx : i < xs.length) (hy : i < ys.length),
        JEquiv (xs.get ⟨i, hx⟩) (ys.get ⟨i, hy⟩)) :
      JEquiv (.jarr xs) (.jarr ys)
  | obj (a b : List (String × JVal))
      (na : (a.map Prod.fst).Nodup) (nb : (b.map Prod.fst).Nodup)
      (hk : ∀ k, (a.lookup k).isSome = (b.lookup k).isSome)
      (hv : ∀ k v w, a.lookup k = some v → b.lookup k = some w → JEquiv v w) :
      JEquiv (.jobj a) (.jobj b)

/-- Prop counterpart of `pairLeB`. -/
def pairLeP (p q : String × String) : Prop :=
  p.1 < q.1 ∨ (p.1 = q.1 ∧ p.2 ≤ q.2)

theorem pairLeB_iff (p q : String × String) : pairLeB p q = true ↔ pairLeP p q := by
  simp [pairLeB, pairLeP]

instance : IsAntisymm (String × String) pairLeP where
  antisymm p q hpq hqp := by
    obtain ⟨k1, v1⟩ := p
    obtain ⟨k2, v2⟩ := q
    rcases hpq with h1 | ⟨h1, h1v⟩ <;> rcases hqp with h2 | ⟨h2, h2v⟩
    · exact absurd h2 (not_lt.mpr (le_of_lt h1))
    · exact absurd h1 (by simp_all)
    · exact absurd h2 (by simp_all)
    · cases (h1 : k1 = k2)
      cases (le_antisymm h1v h2v : v1 = v2)
      rfl

theorem pairLeB_trans (a b c : String × String)
    (h1 : pairLeB a b = true) (h2 : pairLeB b c = true) : pairLeB a c = true := by
  rw [pairLeB_iff] at h1 h2 ⊢
  rcases h1 with h1 | ⟨h1, h1v⟩ <;> rcases h2 with h2 | ⟨h2, h2v⟩
  · exact Or.inl (lt_trans h1 h2)
  · exact Or.inl (h2 ▸ h1)
  · exact Or.inl (h1 ▸ h2)
  · exact Or.inr ⟨h1.trans h2, le_trans h1v h2v⟩

theorem pairLeB_total (a b : String × String) : (pairLeB a b || pairLeB b a) = true := by
  rw [Bool.or_eq_true, pairLeB_iff, pairLeB_iff]
  rcases lt_trichotomy a.1 b.1 with h | h | h
  · exact Or.inl (Or.inl h)
  · rcases le_total a.2 b.2 with hv | hv
    · exact Or.inl (Or.inr ⟨h, hv⟩)
    · exact Or.inr (Or.inr ⟨h.symm, hv⟩)
  · exact Or.inr (Or.inl h)

theorem sortPairs_sorted (ps : List (String × String)) :
    List.Sorted pairLeP (sortPairs ps) :=
  (List.sorted_mergeSort pairLeB_trans pairLeB_total ps).imp
    fun h => (pairLeB_iff _ _).mp h

theorem sortPairs_congr (ps qs : List (String × String)) (hperm : ps.Perm qs) :
    sortPairs ps = sortPairs qs :=
  List.eq_of_perm_of_sorted
    ((List.mergeSort_perm ps pairLeB).trans
      (hperm.trans (List.mergeSort_perm qs pairLeB).symm))
    (sortPairs_sorted ps) (sortPairs_sorted qs)

theorem dumpsEntries_keys (l : List (String × JVal)) :
    (dumpsEntries l).map Prod.fst = l.map Prod.fst := by
  induction l with
  | nil => rfl
  | cons kv rest ih =>
    obtain ⟨k, v⟩ := kv
    simp [dumpsEntries, ih]

theorem mem_dumpsEntries (l : List (String × JVal)) (k : String) (s : String) :
    (k, s) ∈ dumpsEntries l ↔ ∃ v, (k, v) ∈ l ∧ s = dumps v := by
  induction l with
  | nil => simp [dumpsEntries]
  | cons kv rest ih =>
    obtain ⟨k2, v2⟩ := kv
    simp only [dumpsEntries, List.mem_cons, ih, Prod.mk.injEq]
    constructor
    · rintro (⟨hk, hs⟩ | ⟨v, hm, hs⟩)
      · exact ⟨v2, Or.inl ⟨hk, rfl⟩, hs⟩
      · exact ⟨v, Or.inr hm, hs⟩
    · rintro ⟨v, hm | hm, hs⟩
      · exact Or.inl ⟨hm.1, by rw [hs, hm.2]⟩
      · exact Or.inr ⟨v, hm, hs⟩

theorem lookup_of_mem_nodup {α : Type} :
    ∀ (l : List (String × α)) (k : String) (v : α),
      (l.map Prod.fst).Nodup → (k, v) ∈ l → l.lookup k = some v
  | [], _, _, _, hm => by cases hm
  | (k2, v2) :: rest, k, v, hn, hm => by
    rcases List.mem_cons.mp hm with heq | hmem
    · cases heq
      simp [List.lookup]
    · have hk2 : k2 ≠ k := by
        intro hcontra
        subst hcontra
        have : k2 ∈ rest.map Prod.fst :=
          List.mem_map.mpr ⟨(k2, v), hmem, rfl⟩
        exact (List.nodup_cons.mp (by simpa using hn)).1 this
      have hne : (k == k2) = false := by
        simp [BEq.beq]
        exact fun hcontra => hk2 hcontra.symm
      simp only [List.lookup, hne]
      exact lookup_of_mem_nodup rest k v (List.nodup_cons.mp (by simpa using hn)).2 hmem

theorem dumpsStrList_congr :
    ∀ (xs ys : List JVal), xs.length = ys.length →
      (∀ i (hx : i < xs.length) (hy : i < ys.length),
        dumps (xs.get ⟨i, hx⟩) = dumps (ys.get ⟨i, hy⟩)) →
      dumpsStrList xs = dumpsStrList ys
  | [], [], _, _ => rfl
  | [], _ :: _, h, _ => by simp at h
  | _ :: _, [], h, _ => by simp at h
  | x :: xs, y :: ys, h, hpt => by
    unfold dumpsStrList
    congr 1
    · exact hpt 0 (Nat.succ_pos _) (Nat.succ_pos _)
    · exact dumpsStrList_congr xs ys (Nat.succ_injective h)
        fun i hx hy => hpt (i + 1) (Nat.succ_lt_succ hx) (Nat.succ_lt_succ hy)

theorem JEquiv_dumps (a b : JVal) (h : JEquiv a b) : dumps a = dumps b := by
  induction h with
  | null => rfl
  | bool b => rfl
  | int n => rfl
  | float q => rfl
  | str s => rfl
  | arr xs ys hlen hpt ih =>
    show dumps (.jarr xs) = dumps (.jarr ys)
    unfold dumps
    rw [dumpsStrList_congr xs ys hlen ih]
  | obj a b na nb hk hv ih =>
    show dumps (.jobj a) = dumps (.jobj b)
    have hnd1 : (dumpsEntries a).Nodup :=
      List.Nodup.of_map Prod.fst (by rw [dumpsEntries_keys]; exact na)
    have hnd2 : (dumpsEntries b).Nodup :=
      List.Nodup.of_map Prod.fst (by rw [dumpsEntries_keys]; exact nb)
    have hperm : (dumpsEntries a).Perm (dumpsEntries b) := by
      rw [List.perm_ext_iff_of_nodup hnd1 hnd2]
      rintro ⟨k, s⟩
      rw [mem_dumpsEntries, mem_dumpsEntries]
      constructor
      · rintro ⟨v, hm, hs⟩
        have hla : a.lookup k = some v := lookup_of_mem_nodup a k v na hm
        have hsb : (b.lookup k).isSome = true := by
          rw [← hk k, hla]
          rfl
        obtain ⟨w, hlb⟩ := Option.isSome_iff_exists.mp hsb
        exact ⟨w, lookup_mem hlb, hs.trans (ih k v w hla hlb)⟩
      · rintro ⟨w, hm, hs⟩
        have hlb : b.lookup k = some w := lookup_of_mem_nodup b k w nb hm
        have hsa : (a.lookup k).isSome = true := by
          rw [hk k, hlb]
          rfl
        obtain ⟨v, hla⟩ := Option.isSome_iff_exists.mp hsa
        exact ⟨v, lookup_mem hla, hs.trans (ih k v w hla hlb).symm⟩
    unfold dumps
    rw [sortPairs_congr _ _ hperm]

/-! ## SHA-256 (`hashlib.sha256(...).hexdigest()`)

A direct FIPS 180-4 implementation over `Nat` with explicit reduction
modulo `2^32`.  The round and initialization constants are derived, as in
the standard, from the fractional parts of the cube and square roots of the
first primes (computed here with integer root extraction, avoiding
transcription errors). -/

/-- Reduce modulo `2^32`. -/
def w32 (x : Nat) : Nat := x % 4294967296

/-- Right rotation of a 32-bit word. -/
def rotr32 (x n : Nat) : Nat :=
  w32 ((x >>> n) ||| (x <<< (32 - n)))

/-- Binary search for the integer cube root. -/
def cbrtGo : Nat → Nat → Nat → Nat → Nat
  | 0, lo, _, _ => lo
  | fuel + 1, lo, hi, n =>
    if lo + 1 ≥ hi then lo
    else
      let mid := (lo + hi) / 2
      if mid ^ 3 ≤ n then cbrtGo fuel mid hi n else cbrtGo fuel lo mid n

/-- Integer cube root. -/
def natCbrt (n : Nat) : Nat := cbrtGo 200 0 (n + 1) n

/-- Primality by trial division (used only to generate the constants). -/
def isPrimeNat (n : Nat) : Bool :=
  n ≥ 2 && (List.range n).all fun d => d < 2 || !(n % d = 0)

/-- The first 64 primes. -/
def primes64 : List Nat :=
  ((List.range 400).filter isPrimeNat).take 64

/-- Round constants: fractional cube roots of the first 64 primes. -/
def shaK : List Nat :=
  primes64.map fun p => w32 (natCbrt (p * 2 ^ 96))

/-- Initial hash state: fractional square roots of the first 8 primes. -/
def shaH0 : List Nat :=
  (primes64.take 8).map fun p => w32 (Nat.sqrt (p * 2 ^ 64))

/-- Big-endian 64-bit length field. -/
def be8 (n : Nat) : List Nat :=
  (List.range 8).map fun i => (n >>> (8 * (7 - i))) % 256

/-- Pack bytes into big-endian 32-bit words. -/
def toWords : List Nat → List Nat
  | b0 :: b1 :: b2 :: b3 :: rest =>
    ((((b0 <<< 8) ||| b1) <<< 8 ||| b2) <<< 8 ||| b3) :: toWords rest
  | _ => []

/-- Extend the 16-word message schedule to 64 words. -/
def scheduleGo : Nat → List Nat → List Nat
  | 0, ws => ws
  | n + 1, ws =>
    let i := ws.length
    let w15 := ws.getD (i - 15) 0
    let w2 := ws.getD (i - 2) 0
    let w16 := ws.getD (i - 16) 0
    let w7 := ws.getD (i - 7) 0
    let s0 := (rotr32 w15 7) ^^^ (rotr32 w15 18) ^^^ (w15 >>> 3)
    let s1 := (rotr32 w2 17) ^^^ (rotr32 w2 19) ^^^ (w2 >>> 10)
    scheduleGo n (ws ++ [w32 (w16 + s0 + w7 + s1)])

/-- One compression round. -/
def shaRound (st : Nat × Nat × Nat × Nat × Nat × Nat × Nat × Nat) (wk : Nat × Nat) :
    Nat × Nat × Nat × Nat × Nat × Nat × Nat × Nat :=
  let (a, b, c, d, e, f, g, h) := st
  let s1 := (rotr32 e 6) ^^^ (rotr32 e 11) ^^^ (rotr32 e 25)
  let ch := (e &&& f) ^^^ ((e ^^^ 4294967295) &&& g)
  let temp1 := w32 (h + s1 + ch + wk.2 + wk.1)
  let s0 := (rotr32 a 2) ^^^ (rotr32 a 13) ^^^ (rotr32 a 22)
  let maj := (a &&& b) ^^^ (a &&& c) ^^^ (b &&& c)
  let temp2 := w32 (s0 + maj)
  (w32 (temp1 + temp2), a, b, c, w32 (d + temp1), e, f, g)

/-- Process one 64-byte chunk. -/
def processChunk (hs : List Nat) (chunk : List Nat) : List Nat :=
  let ws := scheduleGo 48 (toWords chunk)
  let a0 := hs.getD 0 0
  let b0 := hs.getD 1 0
  let c0 := hs.getD 2 0
  let d0 := hs.getD 3 0
  let e0 := hs.getD 4 0
  let f0 := hs.getD 5 0
  let g0 := hs.getD 6 0
  let h0 := hs.getD 7 0
  let st := (ws.zip shaK).foldl shaRound (a0, b0, c0, d0, e0, f0, g0, h0)
  [w32 (a0 + st.1), w32 (b0 + st.2.1), w32 (c0 + st.2.2.1), w32 (d0 + st.2.2.2.1),
   w32 (e0 + st.2.2.2.2.1), w32 (f0 + st.2.2.2.2.2.1), w32 (g0 + st.2.2.2.2.2.2.1),
   w32 (h0 + st.2.2.2.2.2.2.2)]

/-- Split the padded message into 64-byte chunks. -/
def chunksGo : Nat → List Nat → List (List Nat)
  | 0, _ => []
  | _, [] => []
  | fuel + 1, bs => bs.take 64 :: chunksGo fuel (bs.drop 64)

/-- SHA-256 of a byte sequence (each `Nat` below 256). -/
def sha256Bytes (msg : List Nat) : List Nat :=
  let padlen := (119 - msg.length % 64) % 64
  let padded := msg ++ [128] ++ List.replicate padlen 0 ++ be8 (8 * msg.length)
  (chunksGo (padded.length + 1) padded).foldl processChunk shaH0

/-- UTF-8 encoding of a code point (`str.encode("utf-8")`). -/
def utf8EncodeCp (c : Nat) : List Nat :=
  if c < 128 then [c]
  else if c < 2048 then [192 ||| (c >>> 6), 128 ||| (c &&& 63)]
  else if c < 65536 then
    [224 ||| (c >>> 12), 128 ||| ((c >>> 6) &&& 63), 128 ||| (c &&& 63)]
  else
    [240 ||| (c >>> 18), 128 ||| ((c >>> 12) &&& 63),
     128 ||| ((c >>> 6) &&& 63), 128 ||| (c &&& 63)]

/-- A nibble as a lowercase hex character. -/
def hexDigit (n : Nat) : Char :=
  if n < 10 then Char.ofNat (48 + n) else Char.ofNat (87 + n)

/-- A 32-bit word as 8 hex characters. -/
def hexWord (w : Nat) : List Char :=
  (List.range 8).map fun i => hexDigit ((w >>> (4 * (7 - i))) % 16)

/-- Model of `ctrl.langchain.client._sha256`:
`hashlib.sha256(s.encode("utf-8")).hexdigest()`. -/
def _sha256 (s : String) : String :=
  ⟨(sha256Bytes (s.data.flatMap fun c => utf8EncodeCp c.toNat)).flatMap hexWord⟩

/-- Model of `ctrl.langchain.client._stable_json`: `json.dumps(obj,
separators=(",", ":"), sort_keys=True, ensure_ascii=False)`. -/
def _stable_json (obj : JVal) : String :=
  dumps obj

/-- C7: canonical JSON serialization is a function of the argument map's
contents only — two argument maps equal as (nested) key→value mappings
serialize to byte-identical strings, hence their `arguments_hash`
(SHA-256 hex digest of the canonical JSON) is identical. -/
theorem stable_json_hash_deterministic (a b : JVal) (h : JEquiv a b) :
    _stable_json a = _stable_json b ∧
      _sha256 (_stable_json a) = _sha256 (_stable_json b) := by
  have hd : _stable_json a = _stable_json b := JEquiv_dumps a b h
  exact ⟨hd, by rw [hd]⟩

/-- Witness for `stable_json_hash_deterministic`: the argument maps
`{"b": 1, "a": "x"}` and `{"a": "x", "b": 1}` (same mapping, different
insertion order) serialize and hash identically. -/
theorem stable_json_hash_deterministic_witness :
    _stable_json (.jobj [("b", .jint 1), ("a", .jstr "x")]) =
      _stable_json (.jobj [("a", .jstr "x"), ("b", .jint 1)]) ∧
    _sha256 (_stable_json (.jobj [("b", .jint 1), ("a", .jstr "x")])) =
      _sha256 (_stable_json (.jobj [("a", .jstr "x"), ("b", .jint 1)])) := by
  apply stable_json_hash_deterministic
  apply JEquiv.obj
  · decide
  · decide
  · intro k
    cases hb : (k == "b") <;> cases ha : (k == "a") <;>
      simp [List.lookup, hb, ha]
  · intro k v w h1 h2
    cases hb : (k == "b")
    · cases ha : (k == "a")
      · simp [List.lookup, hb, ha] at h1
      · have hk : k = "a" := eq_of_beq ha
        subst hk
        simp [List.lookup] at h1 h2
        subst h1
        subst h2
        exact JEquiv.str "x"
    · have hk : k = "b" := eq_of_beq hb
      subst hk
      simp [List.lookup] at h1 h2
      subst h1
      subst h2
      exact JEquiv.int 1

/-! ## Approval HTTP surface (`ctrl.approvals.api.approve`)

A state-transition model of `POST /approve/{request_id}`.  The store is a
record of the three tables; SQL `SELECT ... WHERE id = ?` with `fetchone`
is first-match lookup, `UPDATE ... WHERE id = ?` maps over rows, `INSERT`
appends.  The remote tool call (`_execute_tool`, an external adapter) is an
oracle parameter; the `Bool` component of the result records whether the
adapter was invoked.  Timestamps and generated uuids are parameters. -/

/-- A `requests` table row. -/
structure RequestRow where
  id : String
  created_at : String
  server : String
  tool : String
  arguments_json : String
  arguments_hash : String
  actor : Option String := Option.none
  env : String
  status : String
  risk_score : Option Int := Option.none
  risk_mode : Option String := Option.none
  approved_at : Option String := Option.none
  approved_by : Option String := Option.none
  deriving Repr, DecidableEq

/-- A `decisions` table row. -/
structure DecisionRow where
  id : String
  request_id : String
  decided_at : String
  decision : String
  matched_policy_id : Option String
  matched_condition : String
  reason : String
  deriving Repr, DecidableEq

/-- An `events` table row. -/
structure EventRow where
  id : String
  created_at : String
  request_id : Option String
  type_ : String
  data_json : String
  deriving Repr, DecidableEq

/-- The audit store. -/
structure DBState where
  requests : List RequestRow
  decisions : List DecisionRow
  events : List EventRow
  deriving Repr, DecidableEq

/-- An HTTP error response (`HTTPException(code, detail)`). -/
structure HttpErr where
  code : Nat
  detail : String
  deriving Repr, DecidableEq

/-- Model of `SELECT ... FROM requests WHERE id = ?` + `fetchone`. -/
def findRequest (st : DBState) (request_id : String) : Option RequestRow :=
  st.requests.find? fun r => r.id == request_id

/-- Model of `UPDATE requests SET ... WHERE id = ?`. -/
def updateRequest (st : DBState) (request_id : String)
    (f : RequestRow → RequestRow) : DBState :=
  { st with requests := st.requests.map fun r => if r.id == request_id then f r else r }

/-- Model of `INSERT INTO events ...` (append-only). -/
def insertEvent (st : DBState) (ev : EventRow) : DBState :=
  { st with events := st.events ++ [ev] }

/-- Serialization of an optional actor for event payloads. -/
def jsonOfOptStr : Option String → JVal
  | some s => .jstr s
  | Option.none => .jnull

/-- Model of `ctrl.approvals.api.approve`.  Returns the HTTP outcome, the final
store, and whether the remote adapter was invoked.  `body_approved_by`
defaults to `"human"` (`ApproveBody`); `now` stands for `_now_iso()`;
`uuid` generates the event ids; `execOutcome` is the remote tool adapter
oracle (`.error` models any exception it raises). -/
def approve (st : DBState) (request_id : String)
    (body_approved_by : Option String) (now : String) (uuid : Nat → String)
    (execOutcome : Except String String) :
    Except HttpErr String × DBState × Bool :=
  match findRequest st request_id with
  | Option.none => (.error ⟨404, "request not found"⟩, st, false)
  | some r =>
    if r.status ≠ "pending" then
      (.error ⟨400, "request not pending (status=" ++ r.status ++ ")"⟩, st, false)
    else
      -- mark approved and journal approval.granted, committed before the call
      let st1 := updateRequest st request_id fun row =>
        { row with status := "approved", approved_at := some now,
                   approved_by := body_approved_by }
      let st2 := insertEvent st1
        ⟨uuid 0, now, some request_id, "approval.granted",
          dumps (.jobj [("by", jsonOfOptStr body_approved_by)])⟩
      -- execute outside the DB transaction
      match execOutcome with
      | .error e =>
        let st3 := updateRequest st2 request_id fun row => { row with status := "failed" }
        let st4 := insertEvent st3
          ⟨uuid 1, now, some request_id, "proxy.failed",
            dumps (.jobj [("error", .jstr e)])⟩
        (.error ⟨500, "execution failed: " ++ e⟩, st4, true)
      | .ok result =>
        let st3 := updateRequest st2 request_id fun row => { row with status := "executed" }
        let st4 := insertEvent st3
          ⟨uuid 1, now, some request_id, "proxy.executed",
            dumps (.jobj [("ok", .jbool true)])⟩
        let st5 := insertEvent st4
          ⟨uuid 2, now, some request_id, "tool.result",
            dumps (.jobj [("result_preview", .jstr (result.take 500))])⟩
        (.ok "executed", st5, true)

/-- C8: approving a request that is not in status `pending` (e.g. already
`approved`) fails with HTTP 400 and mutates nothing: the store (requests,
decisions, events) is returned unchanged and the remote tool adapter is not
invoked. -/
theorem approve_non_pending_rejected (st : DBState) (request_id : String)
    (body_approved_by : Option String) (now : String) (uuid : Nat → String)
    (execOutcome : Except String String) (row : RequestRow)
    (hfind : findRequest st request_id = some row)
    (hstatus : row.status ≠ "pending") :
    approve st request_id body_approved_by now uuid execOutcome =
      (.error ⟨400, "request not pending (status=" ++ row.status ++ ")"⟩, st, false) := by
  unfold approve
  rw [hfind]
  simp only [if_pos hstatus]

/-- An already-approved request row for the C8 witness. -/
def approvedRow : RequestRow :=
  { id := "r1", created_at := "2024-01-01T00:00:00Z", server := "coingecko",
    tool := "get_markets", arguments_json := "\x7b\x7d",
    arguments_hash := "h", env := "dev", status := "approved" }

/-- Witness for `approve_non_pending_rejected`: re-approving an
already-approved request. -/
theorem approve_non_pending_rejected_witness :
    approve ⟨[approvedRow], [], []⟩
      "r1" (some "alice") "2024-01-02T00:00:00Z" (fun _ => "uuid")
      (.ok "result") =
      (.error ⟨400, "request not pending (status=approved)"⟩,
        ⟨[approvedRow], [], []⟩, false) :=
  approve_non_pending_rejected ⟨[approvedRow], [], []⟩ "r1" (some "alice")
    "2024-01-02T00:00:00Z" (fun _ => "uuid") (.ok "result") approvedRow
    rfl (by decide)

end Ctrl
